import Mathlib

/-!
Verification development for the payment reconciliation flows of the
programacao.dev repository.

The relevant source files are shallowly embedded below:

* `src/app/api/mercado-pago/webhook/route.ts` — contains three concatenated
  documents: the primary webhook handler (`webhookPost1`, with the helpers
  `paymentStatusMap`, `getPaymentWithFallback`, `revokeUserAccess` and
  `processApprovedPayment`), a second webhook handler (`webhookPost2`, the
  version with the explicit idempotency/existence guard), and the payment
  creation handler (`payCreate`).
* the refund endpoint (`refundPost`, the copy with the duplicate-refund check
  and the 30-day limit).
* `src/app/api/user/has-access/route.ts` and the access helper library
  (`hasCourseAccess`, `hasJourneyAccess`, `hasAccessRoute`).

Modelling conventions:

* Machine state: the Prisma database is a record of lists (`DB`).  Prisma
  calls become pure list operations: `findUnique` is `List.find?`, `update`
  fails (throws) when no row matches, `updateMany` and `deleteMany` never
  fail, `upsert` branches on row existence.
* Time: instants are `Nat`.  `endDate.setMonth(endDate.getMonth() + m)` is
  modelled as `now + m` (an abstract, strictly monotone month step); the
  thirty-day refund window compares in the same abstract unit.  No claim
  mixes the two units.
* JavaScript truthiness on strings and numbers (empty string and `0` are
  falsy) is modelled explicitly by `isFalsyS`, `orFalsy`, `orD`, `orDs`.
* `Math.round (a / b)` on the nonnegative values the handlers produce is
  modelled by `mround` (round-half-up on naturals).
* Monetary amounts are naturals; the handlers only copy and sum them, so no
  claim depends on floating-point behaviour.
* HTTP responses are a status code plus a tag naming the JSON body the
  handler builds at that return site.
-/

/-- Internal payment lifecycle status: the `PaymentStatus` union type of the
webhook handler. -/
inductive PStatus
  | PENDING
  | APPROVED
  | REFUNDED
  | CANCELLED
  | FAILED
deriving DecidableEq, Repr

/-- String stored in the `status` column of a payment row for each internal
status value. -/
def statusStr : PStatus → String
  | .PENDING => "PENDING"
  | .APPROVED => "APPROVED"
  | .REFUNDED => "REFUNDED"
  | .CANCELLED => "CANCELLED"
  | .FAILED => "FAILED"

/-- The `ItemType` union `'course' | 'journey'` used in payment metadata. -/
inductive ItemKind
  | course
  | journey
deriving DecidableEq, Repr

/-- One entry of `metadata.items` (interface `PaymentItem`); `kind` models the
`type` field. -/
structure MetaItem where
  id : String
  kind : ItemKind
  quantity : Option Nat
  price : Option Nat
  title : Option String
deriving DecidableEq, Repr

/-- Payment metadata (interface `PaymentMetadata`).  `mtype` and `mid` model
the single-item fields `metadata.type` and `metadata.id`; `user_id` models the
snake-case `metadata.user_id` the primary handler also consults. -/
structure Meta where
  userId : Option String
  items : Option (List MetaItem)
  durationMonths : Option Nat
  mtype : Option ItemKind
  mid : Option String
  user_id : Option String
deriving DecidableEq, Repr

/-- Metadata with every field absent. -/
def meta0 : Meta := ⟨none, none, none, none, none, none⟩

/-- A row of the `Enrollment` table: the unique keys are
`(userId, courseId)` and `(userId, journeyId)`. -/
structure Enrollment where
  userId : String
  courseId : Option String
  journeyId : Option String
  endDate : Option Nat
deriving DecidableEq, Repr

/-- A row of the nested `PaymentItem` table created together with a payment. -/
structure PaymentItemRec where
  itemType : ItemKind
  courseId : Option String
  journeyId : Option String
  quantity : Nat
  price : Nat
  title : String
  description : String
deriving DecidableEq, Repr

/-- A row of the `Payment` table.  `id` is the internal primary key (Prisma
generates it; the model takes it equal to the gateway id, which keeps creation
deterministic), `mpPaymentId` the unique gateway id.  `itemTypeField` models
the `itemType` column (`COURSE`, `JOURNEY` or `MULTIPLE`).  The `status`
column is kept as the raw string the handlers write. -/
structure PaymentRec where
  id : String
  mpPaymentId : String
  userId : String
  status : String
  amount : Nat
  meta : Meta
  itemTypeField : Option String
  courseId : Option String
  journeyId : Option String
  itemRows : List PaymentItemRec
  createdAt : Nat
deriving DecidableEq, Repr

/-- A row of the `Refund` table. -/
structure RefundRec where
  paymentId : String
  mpRefundId : Option String
  status : String
  amount : Nat
deriving DecidableEq, Repr

/-- The database state the handlers read and write. -/
structure DB where
  users : List String
  payments : List PaymentRec
  enrollments : List Enrollment
  refunds : List RefundRec
deriving DecidableEq, Repr

/-- The payment object returned by the gateway lookup
(`new MPPayment(client).get`). -/
structure GwPayment where
  status : String
  meta : Meta
  transaction_amount : Option Nat
  external_reference : Option String
deriving DecidableEq, Repr

/-- Gateway state: the payments the gateway can return, keyed by payment id. -/
structure Gw where
  payments : List (String × GwPayment)
deriving DecidableEq, Repr

/-- Gateway lookup by payment id. -/
def Gw.lookup (gw : Gw) (pid : String) : Option GwPayment :=
  (gw.payments.find? (fun p => p.1 == pid)).map (fun p => p.2)

/-- The result of a gateway refund creation (`PaymentRefund.create`); the
caller passes `none` when the gateway call throws. -/
structure GwRefund where
  rid : Option String
  rstatus : String
deriving DecidableEq, Repr

/-- The parsed webhook request body: `btype` models `body.type` and `dataId`
models `body.data.id`.  A handler receives `none` when `req.json()` fails. -/
structure Body where
  btype : String
  dataId : Option String
deriving DecidableEq, Repr

/-- An HTTP response: status code plus a tag naming the JSON body built at
that return site. -/
structure Resp where
  status : Nat
  tag : String
deriving DecidableEq, Repr

/-- The `sendOK` helper of the primary webhook handler: every response it
builds carries HTTP status 200. -/
def sendOK (tag : String) : Resp := ⟨200, tag⟩

/-- JavaScript truthiness for an optional string: absent and empty are falsy. -/
def isFalsyS : Option String → Bool
  | none => true
  | some s => s == ""

/-- JavaScript `a || b` on optional strings. -/
def orFalsy (a b : Option String) : Option String :=
  if isFalsyS a then b else a

/-- JavaScript `a || d` on an optional number: absent and `0` fall back. -/
def orD : Option Nat → Nat → Nat
  | none, d => d
  | some v, d => if v == 0 then d else v

/-- JavaScript `a || d` on an optional string: absent and empty fall back. -/
def orDs : Option String → String → String
  | none, d => d
  | some s, d => if s == "" then d else s

/-- `Math.round (a / b)` for naturals (round half up). -/
def mround (a b : Nat) : Nat := (2 * a + b) / (2 * b)

/-- `String.toLowerCase()` as a character-list map (extensionally the same as
`String.toLower` on the ASCII status strings the gateway sends, but stated on
the underlying list so that it reduces definitionally). -/
def jsLower (s : String) : String := String.mk (s.data.map Char.toLower)

/-- `String.toUpperCase()`, same modelling as `jsLower`. -/
def jsUpper (s : String) : String := String.mk (s.data.map Char.toUpper)

/-- The `paymentStatusMap` record of the primary webhook handler: lookup of a
gateway status string. -/
def paymentStatusMap (s : String) : Option PStatus :=
  if s == "pending" then some .PENDING
  else if s == "approved" then some .APPROVED
  else if s == "refunded" then some .REFUNDED
  else if s == "cancelled" then some .CANCELLED
  else if s == "rejected" then some .FAILED
  else if s == "in_process" then some .PENDING
  else if s == "in_mediation" then some .PENDING
  else if s == "charged_back" then some .FAILED
  else none

/-- The keys of `paymentStatusMap`. -/
def statusKeys : List String :=
  ["pending", "approved", "refunded", "cancelled", "rejected",
   "in_process", "in_mediation", "charged_back"]

/-- Line 366 of the primary handler: `paymentStatusMap[status] || "PENDING"`
(the map stores no falsy values, so `||` is a plain default). -/
def mappedStatus (s : String) : PStatus :=
  (paymentStatusMap s).getD .PENDING

/-- The event types the webhook handlers accept. -/
def validTypes : List String :=
  ["payment", "refund", "chargeback", "merchant_order"]

/-- The gateway statuses the primary handler treats as negative
(refunded / cancelled / rejected / charged back). -/
def negStatuses : List String :=
  ["refunded", "cancelled", "rejected", "charged_back"]

/-! ## Prisma table operations -/

/-- `prisma.payment.findUnique({ where: { mpPaymentId } })`. -/
def findPaymentByMp (db : DB) (pid : String) : Option PaymentRec :=
  db.payments.find? (fun p => p.mpPaymentId == pid)

/-- `prisma.payment.findUnique({ where: { id } })`. -/
def findPaymentById (db : DB) (pid : String) : Option PaymentRec :=
  db.payments.find? (fun p => p.id == pid)

/-- Existence test backing a payment upsert keyed on `mpPaymentId`. -/
def paymentExists (db : DB) (pid : String) : Bool :=
  db.payments.any (fun p => p.mpPaymentId == pid)

/-- `prisma.payment.update({ where: { mpPaymentId }, data: { status } })`:
Prisma `update` throws when no row matches, which the handlers catch, so the
model returns `none` in that case. -/
def updatePaymentStatusByMp (db : DB) (pid : String) (st : String) : Option DB :=
  if paymentExists db pid then
    some { db with payments := (db.payments.map
      (fun p => if p.mpPaymentId == pid then { p with status := st } else p)) }
  else none

/-- `prisma.enrollment.deleteMany({ where: { userId, courseId } })`. -/
def deleteCourseEnrollments (db : DB) (uid cid : String) : DB :=
  { db with enrollments := (db.enrollments.filter
      (fun e => !(e.userId == uid && e.courseId == some cid))) }

/-- `prisma.enrollment.deleteMany({ where: { userId, journeyId } })`. -/
def deleteJourneyEnrollments (db : DB) (uid jid : String) : DB :=
  { db with enrollments := (db.enrollments.filter
      (fun e => !(e.userId == uid && e.journeyId == some jid))) }

/-- Course enrollment upsert of `processApprovedPayment` (and of both webhook
handlers): `create { endDate: null }`, `update {}` — an existing row is left
untouched. -/
def upsertCourseEnrollment (db : DB) (uid cid : String) : DB :=
  if db.enrollments.any (fun e => e.userId == uid && e.courseId == some cid) then db
  else { db with enrollments := db.enrollments ++ [⟨uid, some cid, none, none⟩] }

/-- Journey enrollment upsert of `processApprovedPayment`:
`create { endDate }`, `update { endDate }` — an existing row gets the freshly
computed end date. -/
def upsertJourneyEnrollmentSet (db : DB) (uid jid : String) (endD : Nat) : DB :=
  if db.enrollments.any (fun e => e.userId == uid && e.journeyId == some jid) then
    { db with enrollments := (db.enrollments.map
        (fun e => if e.userId == uid && e.journeyId == some jid then
          { e with endDate := some endD } else e)) }
  else { db with enrollments := db.enrollments ++ [⟨uid, none, some jid, some endD⟩] }

/-- Journey enrollment upsert of the second webhook handler:
`create { endDate }`, `update {}` — an existing row is left untouched. -/
def upsertJourneyEnrollmentKeep (db : DB) (uid jid : String) (endD : Nat) : DB :=
  if db.enrollments.any (fun e => e.userId == uid && e.journeyId == some jid) then db
  else { db with enrollments := db.enrollments ++ [⟨uid, none, some jid, some endD⟩] }

/-- `ensureUserExists`: the lookup succeeds exactly when the user row exists
(the helper throws otherwise). -/
def userExists (db : DB) (uid : String) : Bool :=
  db.users.contains uid

/-! ## Primary webhook handler (`route.ts`, first document) -/

/-- The `revokeUserAccess` helper (route.ts lines 104–122): per item, delete
all enrollments of the user for that course or journey. -/
def revokeUserAccess (uid : String) (items : List MetaItem) (db : DB) : DB :=
  items.foldl (fun d it =>
    match it.kind with
    | .course => deleteCourseEnrollments d uid it.id
    | .journey => deleteJourneyEnrollments d uid it.id) db

/-- Item validation inside `processApprovedPayment`: fill `quantity`, `price`
and `title` defaults (JavaScript `||`, so `0` and the empty string also fall
back); `n` is `items.length` and `amount` the transaction amount in reais. -/
def validateItem (amount n : Nat) (it : MetaItem) : MetaItem :=
  { it with
    quantity := some (orD it.quantity 1)
    price := some (orD it.price (mround (amount * 100) n))
    title := some (orDs it.title
      (match it.kind with | .course => "Curso" | .journey => "Jornada")) }

/-- The metadata `processApprovedPayment` writes on the payment row:
`{ items: validatedItems, durationMonths }` (every other metadata field is
dropped by the replacement). -/
def papMeta (vitems : List MetaItem) (durationMonths : Nat) : Meta :=
  { meta0 with items := some vitems, durationMonths := some durationMonths }

/-- The update branch of the payment upsert in `processApprovedPayment`:
set `status`, `amount` and `metadata` on the row keyed by `mpPaymentId`. -/
def papUpd (pid : String) (total : Nat) (md : Meta) (p : PaymentRec) : PaymentRec :=
  if p.mpPaymentId == pid then
    { p with status := "APPROVED", amount := total, meta := md }
  else p

/-- The nested `items: { create: ... }` rows built from a validated item. -/
def itemRow (it : MetaItem) : PaymentItemRec :=
  { itemType := it.kind
    courseId := match it.kind with | .course => some it.id | .journey => none
    journeyId := match it.kind with | .course => none | .journey => some it.id
    quantity := it.quantity.getD 1
    price := it.price.getD 0
    title := it.title.getD ""
    description := match it.kind with | .course => "Curso" | .journey => "Jornada" }

/-- The create branch of the payment upsert in `processApprovedPayment`. -/
def papCreateRec (pid uid : String) (total : Nat) (md : Meta) (now : Nat)
    (vitems : List MetaItem) : PaymentRec :=
  { id := pid, mpPaymentId := pid, userId := uid, status := "APPROVED"
    amount := total, meta := md, itemTypeField := none, courseId := none
    journeyId := none, itemRows := vitems.map itemRow, createdAt := now }

/-- One enrollment upsert of `processApprovedPayment` (the body of the
`Promise.all` loop, processed sequentially); `endD` is the journey end date
computed from the processing time. -/
def enrollStep (uid : String) (endD : Nat) (db : DB) (it : MetaItem) : DB :=
  match it.kind with
  | .course => upsertCourseEnrollment db uid it.id
  | .journey => upsertJourneyEnrollmentSet db uid it.id endD

/-- The payment upsert of `processApprovedPayment` on the payment table:
update the row keyed by `mpPaymentId` when it exists, create it otherwise. -/
def papList (pid uid : String) (total : Nat) (md : Meta) (now : Nat)
    (vitems : List MetaItem) (l : List PaymentRec) : List PaymentRec :=
  if l.any (fun p => p.mpPaymentId == pid) then l.map (papUpd pid total md)
  else l ++ [papCreateRec pid uid total md now vitems]

/-- The payment upsert of `processApprovedPayment` (route.ts lines 183–219). -/
def papPayments (pid uid : String) (total : Nat) (md : Meta) (now : Nat)
    (vitems : List MetaItem) (db : DB) : DB :=
  { db with payments := papList pid uid total md now vitems db.payments }

/-- `processApprovedPayment` (route.ts lines 162–266; the loop after the
early `return payment` at line 261 is unreachable and therefore not
modelled): validate the items, upsert the payment as `APPROVED`, then upsert
one enrollment per item.  Returns `none` when `ensureUserExists` throws. -/
def processApprovedPayment (pid uid : String) (amount : Nat)
    (items : List MetaItem) (durationMonths now : Nat) (db : DB) : Option DB :=
  if userExists db uid then
    let vitems := items.map (validateItem amount items.length)
    let total := (vitems.map (fun it => it.price.getD 0)).sum
    let md := papMeta vitems durationMonths
    some (vitems.foldl (enrollStep uid (now + durationMonths))
      (papPayments pid uid total md now vitems db))
  else none

/-- Field-wise JavaScript object spread
`{ ...gwMeta, ...dbMeta, userId: dbUserId }` used by
`getPaymentWithFallback`. -/
def mergeMeta (gwm dbm : Meta) (dbUserId : String) : Meta :=
  { userId := some dbUserId
    items := dbm.items <|> gwm.items
    durationMonths := dbm.durationMonths <|> gwm.durationMonths
    mtype := dbm.mtype <|> gwm.mtype
    mid := dbm.mid <|> gwm.mid
    user_id := dbm.user_id <|> gwm.user_id }

/-- `getPaymentWithFallback` (route.ts lines 75–102): gateway lookup, then,
when the gateway metadata carries no truthy `userId`, merge in the stored
payment row's metadata and `userId`. -/
def getPaymentWithFallback (gw : Gw) (db : DB) (pid : String) : Option GwPayment :=
  match gw.lookup pid with
  | none => none
  | some payment =>
    if isFalsyS payment.meta.userId then
      match findPaymentByMp db pid with
      | some dbp =>
        if dbp.userId == "" then some payment
        else some { payment with meta := mergeMeta payment.meta dbp.meta dbp.userId }
      | none => some payment
    else some payment

/-- Line 393 of the primary handler:
`metadata.durationMonths ? metadata.durationMonths : 12` (JavaScript
truthiness, so `0` also falls back to 12). -/
def durationOrDefault (m : Meta) : Nat :=
  match m.durationMonths with
  | some d => if d == 0 then 12 else d
  | none => 12

/-- The single-item fallback of the primary handler (line 357):
`metadata.type && metadata.id ? [{ id, type, quantity: 1 }] : []`. -/
def fallbackSingle (m : Meta) : List MetaItem :=
  match m.mtype, m.mid with
  | some t, some i => if i == "" then [] else [⟨i, t, some 1, none, none⟩]
  | _, _ => []

/-- The item list the primary handler processes (lines 354–359). -/
def resolveItems (m : Meta) : List MetaItem :=
  match m.items with
  | some l => if l.length > 0 then l else fallbackSingle m
  | none => fallbackSingle m

/-- The user id the primary handler resolves (lines 332–334):
`metadata.userId || payment.external_reference || payment.metadata.user_id`. -/
def resolveUserId (payment : GwPayment) : Option String :=
  orFalsy payment.meta.userId
    (orFalsy payment.external_reference payment.meta.user_id)

/-- Item normalisation of the primary handler's pending branch (lines
408–413); `amount` is already in cents here. -/
def pendItem (amount n : Nat) (it : MetaItem) : MetaItem :=
  { it with
    quantity := some (orD it.quantity 1)
    price := some (orD it.price (mround amount (max 1 n)))
    title := some (orDs it.title
      (match it.kind with | .course => "Curso" | .journey => "Jornada")) }

/-- The payment upsert of the pending branch (lines 416–444): metadata is
replaced by `{ items: itemsData }`. -/
def pendingUpsert (db : DB) (pid uid st : String) (amount : Nat)
    (itemsData : List MetaItem) (now : Nat) : DB :=
  let md := { meta0 with items := some itemsData }
  if paymentExists db pid then
    { db with payments := (db.payments.map
        (fun p => if p.mpPaymentId == pid then
          { p with status := st, amount := amount, meta := md } else p)) }
  else
    { db with payments := (db.payments ++
        [{ id := pid, mpPaymentId := pid, userId := uid, status := st,
           amount := amount, meta := md, itemTypeField := none,
           courseId := none, journeyId := none,
           itemRows := itemsData.map itemRow, createdAt := now }]) }

/-- The primary webhook `POST` handler (route.ts lines 288–459).  Every
`throw` the source catches is modelled by the corresponding error return; the
outer `catch` maps internal failures to `"internal"`. -/
def webhookPost1Core (body : Option Body) (gw : Gw) (now : Nat) (db : DB) :
    DB × String :=
  match body with
  | none => (db, "invalid_body")
  | some b =>
    if !(validTypes.contains b.btype) then (db, "ignored")
    else
      match b.dataId with
      | none => (db, "missing_payment_id")
      | some pid =>
        match getPaymentWithFallback gw db pid with
        | none => (db, "payment_fetch_failed")
        | some payment =>
          let st := jsLower payment.status
          let m := payment.meta
          let uidO := resolveUserId payment
          if isFalsyS uidO then (db, "missing_user_id")
          else
            let uid := uidO.getD ""
            let items := resolveItems m
            if items.length == 0 then (db, "missing_items")
            else
              let mapped := mappedStatus st
              if negStatuses.contains st then
                match updatePaymentStatusByMp db pid (statusStr mapped) with
                | none => (db, "internal")
                | some db1 =>
                  let db2 := if st == "refunded"
                    then revokeUserAccess uid items db1 else db1
                  (db2, "ok")
              else if st == "approved" then
                match processApprovedPayment pid uid
                    (payment.transaction_amount.getD 0) items
                    (durationOrDefault m) now db with
                | none => (db, "internal")
                | some db1 => (db1, "ok")
              else
                if userExists db uid then
                  let amount := (payment.transaction_amount.getD 0) * 100
                  let itemsData := items.map (pendItem amount items.length)
                  (pendingUpsert db pid uid (statusStr mapped) amount
                    itemsData now, "ok")
                else (db, "user_not_found")

/-- The primary webhook `POST` handler: every return site of the source wraps
its JSON body in `sendOK`, so the handler is the core computation with the
response tag sent through `sendOK`. -/
def webhookPost1 (body : Option Body) (gw : Gw) (now : Nat) (db : DB) :
    DB × Resp :=
  ((webhookPost1Core body gw now db).1, sendOK (webhookPost1Core body gw now db).2)

/-! ## Second webhook handler (`route.ts`, second document) -/

/-- The payment row the second handler creates (route.ts lines 546–556):
single-item columns, no metadata, amount taken straight from the gateway. -/
def w2CreateRec (pid uid : String) (amount : Nat) (k : ItemKind)
    (itemId : String) (now : Nat) : PaymentRec :=
  { id := pid, mpPaymentId := pid, userId := uid, status := "APPROVED",
    amount := amount, meta := meta0,
    itemTypeField := some (match k with | .journey => "JOURNEY" | .course => "COURSE"),
    courseId := (match k with | .course => some itemId | .journey => none),
    journeyId := (match k with | .course => none | .journey => some itemId),
    itemRows := [], createdAt := now }

/-- The second webhook `POST` handler (route.ts lines 472–597).  `req.json()`
is not guarded here, so an unparseable body reaches the outer catch and
yields HTTP 500; a missing `data.id` yields HTTP 400.  `durationMonths` uses
nullish coalescing (`?? 12`), so `0` is kept.  An approved notification is
dropped when a payment row with the gateway id already exists (the
idempotency guard at lines 535–541). -/
def webhookPost2 (body : Option Body) (gw : Gw) (now : Nat) (db : DB) :
    DB × Resp :=
  match body with
  | none => (db, ⟨500, "internal_error"⟩)
  | some b =>
    if !(validTypes.contains b.btype) then (db, ⟨200, "ok"⟩)
    else
      match b.dataId with
      | none => (db, ⟨400, "invalid_payload"⟩)
      | some pid =>
        match gw.lookup pid with
        | none => (db, ⟨500, "internal_error"⟩)
        | some payment =>
          let st := payment.status
          let m := payment.meta
          if isFalsyS m.userId || m.mtype.isNone || isFalsyS m.mid then
            (db, ⟨200, "ok"⟩)
          else
            let uid := m.userId.getD ""
            let k := m.mtype.getD .course
            let itemId := m.mid.getD ""
            let dm := m.durationMonths.getD 12
            if st == "refunded" || st == "cancelled" then
              let db1 := { db with payments := (db.payments.map
                (fun p => if p.mpPaymentId == pid then
                  { p with status := jsUpper st } else p)) }
              let db2 := match k with
                | .course => deleteCourseEnrollments db1 uid itemId
                | .journey => deleteJourneyEnrollments db1 uid itemId
              (db2, ⟨200, "ok"⟩)
            else if st != "approved" then (db, ⟨200, "ok"⟩)
            else if paymentExists db pid then (db, ⟨200, "ok"⟩)
            else
              let db1 := { db with payments := (db.payments ++
                [w2CreateRec pid uid (payment.transaction_amount.getD 0) k itemId now]) }
              let db2 := match k with
                | .course => upsertCourseEnrollment db1 uid itemId
                | .journey => upsertJourneyEnrollmentKeep db1 uid itemId (now + dm)
              (db2, ⟨200, "ok"⟩)

/-! ## Refund endpoint (`part_008`) -/

/-- Whether the payment already has a refund in status `COMPLETED` or
`APPROVED` (the duplicate-refund check of the refund endpoint). -/
def hasApprovedRefund (db : DB) (paymentId : String) : Bool :=
  (db.refunds.filter (fun r => r.paymentId == paymentId)).any
    (fun r => r.status == "COMPLETED" || r.status == "APPROVED")

/-- The item list a payment row denotes for access revocation, mirroring the
branching of the refund endpoint (part_008 lines 103–142): single-item
columns for `COURSE` / `JOURNEY`, the metadata items for `MULTIPLE`. -/
def paymentItemsOf (p : PaymentRec) : List MetaItem :=
  if p.itemTypeField == some "COURSE" then
    match p.courseId with
    | some c => [⟨c, .course, none, none, none⟩]
    | none => []
  else if p.itemTypeField == some "JOURNEY" then
    match p.journeyId with
    | some j => [⟨j, .journey, none, none, none⟩]
    | none => []
  else if p.itemTypeField == some "MULTIPLE" then p.meta.items.getD []
  else []

/-- Access revocation after a refund (part_008 lines 103–147): delete the
enrollments of the payment's items according to the `itemType` column. -/
def revokeByPayment (db : DB) (uid : String) (p : PaymentRec) : DB :=
  (paymentItemsOf p).foldl (fun d it =>
    match it.kind with
    | .course => deleteCourseEnrollments d uid it.id
    | .journey => deleteJourneyEnrollments d uid it.id) db

/-- The refund endpoint `POST` (part_008 lines 19–161): look up the payment
by internal id, check ownership, reject a second refund, enforce the 30-day
window, create the gateway refund (`gwRefund = none` models the gateway call
throwing), then in one transaction create the refund row and set the payment
to `REFUNDED`, and finally revoke access.  The payment's own status is never
inspected. -/
def refundPost (paymentId uid : String) (gwRefund : Option GwRefund)
    (now : Nat) (db : DB) : DB × Resp :=
  match findPaymentById db paymentId with
  | none => (db, ⟨404, "payment_not_found"⟩)
  | some payment =>
    if payment.userId != uid then (db, ⟨403, "not_authorized"⟩)
    else if hasApprovedRefund db paymentId then (db, ⟨400, "already_refunded"⟩)
    else if payment.createdAt + 30 < now then (db, ⟨400, "too_late"⟩)
    else
      match gwRefund with
      | none => (db, ⟨500, "mp_refund_failed"⟩)
      | some mr =>
        let db1 := { db with
          refunds := db.refunds ++ [⟨paymentId, mr.rid, mr.rstatus, payment.amount⟩],
          payments := (db.payments.map (fun p =>
            if p.id == paymentId then { p with status := "REFUNDED" } else p)) }
        (revokeByPayment db1 uid payment, ⟨200, "success"⟩)

/-! ## Payment creation handler (`route.ts`, third document) -/

/-- The metadata the payment creation handler stores (userId plus the
enriched item list; the method / installment / QR fields do not affect any
claim and are not modelled). -/
def payCreateMeta (uid : String) (items : List MetaItem) : Meta :=
  { meta0 with userId := some uid, items := some items }

/-- The `itemType` column value chosen at creation (route.ts lines 765–767). -/
def payCreateItemType (items : List MetaItem) : String :=
  match items with
  | [i] => (match i.kind with | .course => "COURSE" | .journey => "JOURNEY")
  | _ => "MULTIPLE"

/-- The payment creation handler's database write (route.ts lines 769–806):
upsert keyed on the gateway payment id, status `PENDING`; the follow-up
update at lines 808–820 only rewrites metadata QR fields and is not
modelled.  `items` stands for the already enriched item list and
`totalCents` for the computed total. -/
def payCreate (uid pid : String) (items : List MetaItem) (totalCents : Nat)
    (now : Nat) (db : DB) : DB :=
  let courseIds := ((items.filter (fun i => i.kind == .course)).map MetaItem.id)
  let journeyIds := ((items.filter (fun i => i.kind == .journey)).map MetaItem.id)
  let md := payCreateMeta uid items
  if paymentExists db pid then
    { db with payments := (db.payments.map (fun p =>
        if p.mpPaymentId == pid then
          { p with status := "PENDING", meta := md, createdAt := now } else p)) }
  else
    { db with payments := (db.payments ++
        [{ id := pid, mpPaymentId := pid, userId := uid, status := "PENDING",
           amount := totalCents, meta := md,
           itemTypeField := some (payCreateItemType items),
           courseId := courseIds.head?, journeyId := journeyIds.head?,
           itemRows := [], createdAt := now }]) }

/-! ## Access checks (`has-access/route.ts` and the access helper library) -/

/-- The `findFirst` condition shared by the access checks: the end date is
absent (lifetime access) or at least the current instant (`gte: now`). -/
def endDateOk (now : Nat) : Option Nat → Bool
  | none => true
  | some d => decide (now ≤ d)

/-- `hasCourseAccess` (part_015 lines 24–39): some enrollment of the user for
the course is untimed or not yet expired. -/
def hasCourseAccess (db : DB) (uid cid : String) (now : Nat) : Bool :=
  db.enrollments.any (fun e =>
    e.userId == uid && e.courseId == some cid && endDateOk now e.endDate)

/-- The journey query of the has-access route (same shape as the course
query, keyed on `journeyId`). -/
def hasJourneyAccess (db : DB) (uid jid : String) (now : Nat) : Bool :=
  db.enrollments.any (fun e =>
    e.userId == uid && e.journeyId == some jid && endDateOk now e.endDate)

/-- Type-parameter normalisation of the has-access route (line 16). -/
def normalizeType (t : String) : String :=
  if t == "curso" then "course"
  else if t == "jornada" then "journey"
  else t

/-- The `GET /api/user/has-access` handler reduced to the `hasAccess` value
it returns (parameters present; no session means `false`). -/
def hasAccessRoute (db : DB) (session : Option String) (typeParam idP : String)
    (now : Nat) : Bool :=
  match session with
  | none => false
  | some uid =>
    let t := normalizeType typeParam
    if t == "course" then hasCourseAccess db uid idP now
    else if t == "journey" then hasJourneyAccess db uid idP now
    else false

/-! ## Specification predicates -/

/-- No enrollment of the user for the given item is present. -/
def noItemEnrollment (db : DB) (uid : String) (it : MetaItem) : Prop :=
  match it.kind with
  | .course => ∀ e ∈ db.enrollments, ¬(e.userId = uid ∧ e.courseId = some it.id)
  | .journey => ∀ e ∈ db.enrollments, ¬(e.userId = uid ∧ e.journeyId = some it.id)

/-- Some enrollment of the user for the course exists. -/
def courseEnrolled (db : DB) (uid cid : String) : Prop :=
  ∃ e ∈ db.enrollments, e.userId = uid ∧ e.courseId = some cid

/-- Some enrollment of the user for the journey exists, and every such
enrollment carries the given end date. -/
def journeyEnrolled (db : DB) (uid jid : String) (endD : Nat) : Prop :=
  (∃ e ∈ db.enrollments, e.userId = uid ∧ e.journeyId = some jid) ∧
  ∀ e ∈ db.enrollments, e.userId = uid → e.journeyId = some jid →
    e.endDate = some endD

/-- The enrollment state `processApprovedPayment` establishes for one item. -/
def itemEnrolled (db : DB) (uid : String) (endD : Nat) (it : MetaItem) : Prop :=
  match it.kind with
  | .course => courseEnrolled db uid it.id
  | .journey => journeyEnrolled db uid it.id endD

/-- No enrollment of the user for the course exists. -/
def freshCourse (db : DB) (uid cid : String) : Prop :=
  ∀ e ∈ db.enrollments, ¬(e.userId = uid ∧ e.courseId = some cid)

/-- The five payment lifecycle states, as stored in the status column. -/
def lifecycleStrs : List String :=
  ["PENDING", "APPROVED", "REFUNDED", "CANCELLED", "FAILED"]

/-- Every payment row carries one of the five lifecycle states. -/
def statusInv (db : DB) : Prop :=
  ∀ p ∈ db.payments, p.status ∈ lifecycleStrs

/-- The guards the refund endpoint actually checks: the payment exists,
belongs to the requesting user, has no completed or approved refund yet, and
is at most thirty days old.  The payment status is not among them. -/
def refundGuardsOK (paymentId uid : String) (now : Nat) (db : DB) : Prop :=
  ∃ p, findPaymentById db paymentId = some p ∧ p.userId = uid ∧
    hasApprovedRefund db paymentId = false ∧ ¬ (p.createdAt + 30 < now)

/-! ## General lemmas about the embedded operations -/

/-- The enrollment upserts of `processApprovedPayment` only touch the
enrollment table. -/
theorem enrollStep_frame (uid : String) (endD : Nat) (db : DB) (it : MetaItem) :
    (enrollStep uid endD db it).users = db.users ∧
    (enrollStep uid endD db it).payments = db.payments ∧
    (enrollStep uid endD db it).refunds = db.refunds := by
  cases hk : it.kind <;>
    simp only [enrollStep, hk, upsertCourseEnrollment, upsertJourneyEnrollmentSet] <;>
    split <;> simp

/-- The enrollment loop of `processApprovedPayment` only touches the
enrollment table. -/
theorem enrollFold_frame (uid : String) (endD : Nat) (items : List MetaItem)
    (db : DB) :
    (items.foldl (enrollStep uid endD) db).users = db.users ∧
    (items.foldl (enrollStep uid endD) db).payments = db.payments ∧
    (items.foldl (enrollStep uid endD) db).refunds = db.refunds := by
  induction items generalizing db with
  | nil => exact ⟨rfl, rfl, rfl⟩
  | cons it rest ih =>
    obtain ⟨h1, h2, h3⟩ := ih (enrollStep uid endD db it)
    obtain ⟨g1, g2, g3⟩ := enrollStep_frame uid endD db it
    exact ⟨h1.trans g1, h2.trans g2, h3.trans g3⟩

/-- Enrollment deletions only touch the enrollment table. -/
theorem deleteCourse_frame (db : DB) (uid cid : String) :
    (deleteCourseEnrollments db uid cid).users = db.users ∧
    (deleteCourseEnrollments db uid cid).payments = db.payments ∧
    (deleteCourseEnrollments db uid cid).refunds = db.refunds := by
  simp [deleteCourseEnrollments]

/-- Enrollment deletions only touch the enrollment table. -/
theorem deleteJourney_frame (db : DB) (uid jid : String) :
    (deleteJourneyEnrollments db uid jid).users = db.users ∧
    (deleteJourneyEnrollments db uid jid).payments = db.payments ∧
    (deleteJourneyEnrollments db uid jid).refunds = db.refunds := by
  simp [deleteJourneyEnrollments]

/-- Access revocation only touches the enrollment table. -/
theorem revokeUserAccess_frame (uid : String) (items : List MetaItem) (db : DB) :
    (revokeUserAccess uid items db).users = db.users ∧
    (revokeUserAccess uid items db).payments = db.payments ∧
    (revokeUserAccess uid items db).refunds = db.refunds := by
  induction items generalizing db with
  | nil => exact ⟨rfl, rfl, rfl⟩
  | cons it rest ih =>
    cases hk : it.kind <;>
      simp only [revokeUserAccess, List.foldl_cons, hk] <;>
      [obtain ⟨g1, g2, g3⟩ := deleteCourse_frame db uid it.id;
       obtain ⟨g1, g2, g3⟩ := deleteJourney_frame db uid it.id] <;>
      [obtain ⟨h1, h2, h3⟩ := ih (deleteCourseEnrollments db uid it.id);
       obtain ⟨h1, h2, h3⟩ := ih (deleteJourneyEnrollments db uid it.id)] <;>
      exact ⟨h1.trans g1, h2.trans g2, h3.trans g3⟩

/-- A row surviving a course-enrollment deletion was in the table before. -/
theorem mem_of_mem_deleteCourse {db : DB} {uid cid : String} {e : Enrollment}
    (h : e ∈ (deleteCourseEnrollments db uid cid).enrollments) :
    e ∈ db.enrollments := by
  simpa [deleteCourseEnrollments] using (List.mem_filter.mp h).1

/-- A row surviving a journey-enrollment deletion was in the table before. -/
theorem mem_of_mem_deleteJourney {db : DB} {uid jid : String} {e : Enrollment}
    (h : e ∈ (deleteJourneyEnrollments db uid jid).enrollments) :
    e ∈ db.enrollments := by
  simpa [deleteJourneyEnrollments] using (List.mem_filter.mp h).1

/-- A row surviving the revocation loop was in the table before. -/
theorem mem_of_mem_revoke {uid : String} {items : List MetaItem} {db : DB}
    {e : Enrollment} (h : e ∈ (revokeUserAccess uid items db).enrollments) :
    e ∈ db.enrollments := by
  induction items generalizing db with
  | nil => exact h
  | cons it rest ih =>
    cases hk : it.kind
    case course =>
      simp only [revokeUserAccess, List.foldl_cons, hk] at h
      exact mem_of_mem_deleteCourse (ih h)
    case journey =>
      simp only [revokeUserAccess, List.foldl_cons, hk] at h
      exact mem_of_mem_deleteJourney (ih h)

/-- Deleting the course enrollments of a user removes every matching row. -/
theorem deleteCourse_clears (db : DB) (uid cid : String) :
    ∀ e ∈ (deleteCourseEnrollments db uid cid).enrollments,
      ¬(e.userId = uid ∧ e.courseId = some cid) := by
  intro e he
  have h : e ∈ db.enrollments ∧ (¬e.userId = uid ∨ ¬e.courseId = some cid) := by
    simpa [deleteCourseEnrollments] using he
  rintro ⟨h1, h2⟩
  rcases h.2 with h3 | h3 <;> exact h3 (by assumption)

/-- Deleting the journey enrollments of a user removes every matching row. -/
theorem deleteJourney_clears (db : DB) (uid jid : String) :
    ∀ e ∈ (deleteJourneyEnrollments db uid jid).enrollments,
      ¬(e.userId = uid ∧ e.journeyId = some jid) := by
  intro e he
  have h : e ∈ db.enrollments ∧ (¬e.userId = uid ∨ ¬e.journeyId = some jid) := by
    simpa [deleteJourneyEnrollments] using he
  rintro ⟨h1, h2⟩
  rcases h.2 with h3 | h3 <;> exact h3 (by assumption)

/-- After the revocation loop of the primary webhook handler, no enrollment
of the user for any processed item survives. -/
theorem revokeUserAccess_clears (uid : String) (items : List MetaItem) (db : DB) :
    ∀ it ∈ items, noItemEnrollment (revokeUserAccess uid items db) uid it := by
  induction items generalizing db with
  | nil => intro it h; cases h
  | cons hd rest ih =>
    intro it hit
    rcases List.mem_cons.mp hit with rfl | hmem
    · -- the head is cleared by its own deletion and stays cleared
      cases hk : it.kind
      case course =>
        simp only [noItemEnrollment, hk]
        intro e he hbad
        have he0 : e ∈ (deleteCourseEnrollments db uid it.id).enrollments := by
          simp only [revokeUserAccess, List.foldl_cons, hk] at he
          exact mem_of_mem_revoke he
        exact deleteCourse_clears db uid it.id e he0 hbad
      case journey =>
        simp only [noItemEnrollment, hk]
        intro e he hbad
        have he0 : e ∈ (deleteJourneyEnrollments db uid it.id).enrollments := by
          simp only [revokeUserAccess, List.foldl_cons, hk] at he
          exact mem_of_mem_revoke he
        exact deleteJourney_clears db uid it.id e he0 hbad
    · cases hk : hd.kind
      case course =>
        have := ih (deleteCourseEnrollments db uid hd.id) it hmem
        simpa only [revokeUserAccess, List.foldl_cons, hk] using this
      case journey =>
        have := ih (deleteJourneyEnrollments db uid hd.id) it hmem
        simpa only [revokeUserAccess, List.foldl_cons, hk] using this

/-- Boolean key match for course enrollments, read back as a proposition. -/
theorem courseMatch_iff (e : Enrollment) (uid cid : String) :
    (e.userId == uid && e.courseId == some cid) = true ↔
      e.userId = uid ∧ e.courseId = some cid := by
  simp

/-- Boolean key match for journey enrollments, read back as a proposition. -/
theorem journeyMatch_iff (e : Enrollment) (uid jid : String) :
    (e.userId == uid && e.journeyId == some jid) = true ↔
      e.userId = uid ∧ e.journeyId = some jid := by
  simp

/-- The course upsert leaves some matching enrollment in the table. -/
theorem upsertCourse_establishes (db : DB) (uid cid : String) :
    courseEnrolled (upsertCourseEnrollment db uid cid) uid cid := by
  unfold upsertCourseEnrollment
  split
  case isTrue h =>
    obtain ⟨e, he, hm⟩ := List.any_eq_true.mp h
    exact ⟨e, he, (courseMatch_iff e uid cid).mp hm⟩
  case isFalse h =>
    exact ⟨⟨uid, some cid, none, none⟩, by simp, rfl, rfl⟩

/-- The course upsert keeps every pre-existing enrollment row. -/
theorem upsertCourse_keeps {db : DB} {e : Enrollment} (uid cid : String)
    (he : e ∈ db.enrollments) :
    e ∈ (upsertCourseEnrollment db uid cid).enrollments := by
  unfold upsertCourseEnrollment
  split
  · exact he
  · simp [he]

/-- The journey upsert with end-date overwrite establishes the journey
enrollment state for its own key. -/
theorem upsertJourneySet_establishes (db : DB) (uid jid : String) (endD : Nat) :
    journeyEnrolled (upsertJourneyEnrollmentSet db uid jid endD) uid jid endD := by
  unfold upsertJourneyEnrollmentSet
  split
  case isTrue h =>
    obtain ⟨e0, he0, hm0⟩ := List.any_eq_true.mp h
    constructor
    · refine ⟨{ e0 with endDate := some endD }, ?_, ?_, ?_⟩
      · have : e0 ∈ db.enrollments := he0
        have hmem := List.mem_map_of_mem
          (fun e => if e.userId == uid && e.journeyId == some jid then
            { e with endDate := some endD } else e) this
        simpa [hm0] using hmem
      · exact ((journeyMatch_iff e0 uid jid).mp hm0).1
      · exact ((journeyMatch_iff e0 uid jid).mp hm0).2
    · intro e he h1 h2
      simp only at he
      obtain ⟨e1, he1, heq⟩ := List.mem_map.mp he
      by_cases hc : (e1.userId == uid && e1.journeyId == some jid) = true
      · rw [if_pos hc] at heq
        rw [← heq]
      · rw [if_neg hc] at heq
        subst heq
        exact absurd ((journeyMatch_iff e1 uid jid).mpr ⟨h1, h2⟩) hc
  case isFalse h =>
    have hnone := List.any_eq_false.mp (Bool.not_eq_true _ ▸ h)
    constructor
    · exact ⟨⟨uid, none, some jid, some endD⟩, by simp, rfl, rfl⟩
    · intro e he h1 h2
      rcases List.mem_append.mp he with he2 | he2
      · exact absurd ((journeyMatch_iff e uid jid).mpr ⟨h1, h2⟩) (hnone e he2)
      · simp only [List.mem_singleton] at he2
        subst he2
        rfl

/-- The course upsert preserves any established course enrollment state. -/
theorem upsertCourse_preserves_course {db : DB} {uid cid : String}
    (uid2 cid2 : String) (h : courseEnrolled db uid cid) :
    courseEnrolled (upsertCourseEnrollment db uid2 cid2) uid cid := by
  obtain ⟨e, he, h1, h2⟩ := h
  exact ⟨e, upsertCourse_keeps uid2 cid2 he, h1, h2⟩

/-- The course upsert preserves any established journey enrollment state:
the appended row (if any) carries no journey id. -/
theorem upsertCourse_preserves_journey {db : DB} {uid jid : String}
    {endD : Nat} (uid2 cid2 : String) (h : journeyEnrolled db uid jid endD) :
    journeyEnrolled (upsertCourseEnrollment db uid2 cid2) uid jid endD := by
  obtain ⟨⟨e, he, h1, h2⟩, hall⟩ := h
  constructor
  · exact ⟨e, upsertCourse_keeps uid2 cid2 he, h1, h2⟩
  · intro f hf g1 g2
    unfold upsertCourseEnrollment at hf
    split at hf
    · exact hall f hf g1 g2
    · rcases List.mem_append.mp hf with hf2 | hf2
      · exact hall f hf2 g1 g2
      · simp only [List.mem_singleton] at hf2
        subst hf2
        cases g2

/-- Rows changed by the journey upsert keep their user, course and journey
keys; only `endDate` moves. -/
theorem upsertJourneySet_mem {db : DB} {e : Enrollment} (uid jid : String)
    (endD : Nat) (he : e ∈ db.enrollments) :
    e ∈ (upsertJourneyEnrollmentSet db uid jid endD).enrollments ∨
      ((e.userId == uid && e.journeyId == some jid) = true ∧
        { e with endDate := some endD } ∈
          (upsertJourneyEnrollmentSet db uid jid endD).enrollments) := by
  unfold upsertJourneyEnrollmentSet
  split
  case isTrue h =>
    by_cases hc : (e.userId == uid && e.journeyId == some jid) = true
    · right
      refine ⟨hc, ?_⟩
      have hmem := List.mem_map_of_mem
        (fun e => if e.userId == uid && e.journeyId == some jid then
          { e with endDate := some endD } else e) he
      simpa [hc] using hmem
    · left
      have hmem := List.mem_map_of_mem
        (fun e => if e.userId == uid && e.journeyId == some jid then
          { e with endDate := some endD } else e) he
      simpa [hc] using hmem
  case isFalse h =>
    left
    simp [he]

/-- The journey upsert preserves any established course enrollment state. -/
theorem upsertJourneySet_preserves_course {db : DB} {uid cid : String}
    (uid2 jid2 : String) (endD2 : Nat) (h : courseEnrolled db uid cid) :
    courseEnrolled (upsertJourneyEnrollmentSet db uid2 jid2 endD2) uid cid := by
  obtain ⟨e, he, h1, h2⟩ := h
  rcases upsertJourneySet_mem uid2 jid2 endD2 he with hm | ⟨_, hm⟩
  · exact ⟨e, hm, h1, h2⟩
  · exact ⟨{ e with endDate := some endD2 }, hm, h1, h2⟩

/-- The journey upsert (with the same end date) preserves any established
journey enrollment state. -/
theorem upsertJourneySet_preserves_journey {db : DB} {uid jid : String}
    {endD : Nat} (uid2 jid2 : String) (h : journeyEnrolled db uid jid endD) :
    journeyEnrolled (upsertJourneyEnrollmentSet db uid2 jid2 endD) uid jid endD := by
  obtain ⟨⟨e, he, h1, h2⟩, hall⟩ := h
  constructor
  · rcases upsertJourneySet_mem uid2 jid2 endD he with hm | ⟨_, hm⟩
    · exact ⟨e, hm, h1, h2⟩
    · exact ⟨{ e with endDate := some endD }, hm, h1, h2⟩
  · intro f hf g1 g2
    unfold upsertJourneyEnrollmentSet at hf
    split at hf
    case isTrue h0 =>
      simp only at hf
      obtain ⟨e1, he1, heq⟩ := List.mem_map.mp hf
      by_cases hc : (e1.userId == uid2 && e1.journeyId == some jid2) = true
      · rw [if_pos hc] at heq
        rw [← heq]
      · rw [if_neg hc] at heq
        subst heq
        exact hall e1 he1 g1 g2
    case isFalse h0 =>
      rcases List.mem_append.mp hf with hf2 | hf2
      · exact hall f hf2 g1 g2
      · simp only [List.mem_singleton] at hf2
        subst hf2
        rfl

/-- Each enrollment upsert establishes the state for its own item. -/
theorem enrollStep_establishes (uid : String) (endD : Nat) (db : DB)
    (it : MetaItem) : itemEnrolled (enrollStep uid endD db it) uid endD it := by
  cases hk : it.kind
  case course =>
    simp only [itemEnrolled, enrollStep, hk]
    exact upsertCourse_establishes db uid it.id
  case journey =>
    simp only [itemEnrolled, enrollStep, hk]
    exact upsertJourneySet_establishes db uid it.id endD

/-- Each enrollment upsert preserves the state already established for any
item (all upserts of one `processApprovedPayment` run share `uid` and
`endD`). -/
theorem enrollStep_preserves (uid : String) (endD : Nat) (db : DB)
    (it it2 : MetaItem) (h : itemEnrolled db uid endD it) :
    itemEnrolled (enrollStep uid endD db it2) uid endD it := by
  cases hk : it.kind <;> cases hk2 : it2.kind <;>
    simp only [itemEnrolled, enrollStep, hk, hk2] at h ⊢
  · exact upsertCourse_preserves_course uid it2.id h
  · exact upsertJourneySet_preserves_course uid it2.id endD h
  · exact upsertCourse_preserves_journey uid it2.id h
  · exact upsertJourneySet_preserves_journey uid it2.id h

/-- The enrollment loop preserves any established item state. -/
theorem enrollFold_preserves (uid : String) (endD : Nat) (items : List MetaItem)
    (db : DB) (it : MetaItem) (h : itemEnrolled db uid endD it) :
    itemEnrolled (items.foldl (enrollStep uid endD) db) uid endD it := by
  induction items generalizing db with
  | nil => exact h
  | cons hd rest ih =>
    exact ih (enrollStep uid endD db hd) (enrollStep_preserves uid endD db it hd h)

/-- After the enrollment loop of `processApprovedPayment`, the state of every
processed item is established. -/
theorem enrollFold_establishes (uid : String) (endD : Nat)
    (items : List MetaItem) (db : DB) :
    ∀ it ∈ items, itemEnrolled (items.foldl (enrollStep uid endD) db) uid endD it := by
  induction items generalizing db with
  | nil => intro it h; cases h
  | cons hd rest ih =>
    intro it hit
    rcases List.mem_cons.mp hit with rfl | hmem
    · simp only [List.foldl_cons]
      exact enrollFold_preserves uid endD rest _ it
        (enrollStep_establishes uid endD db it)
    · simp only [List.foldl_cons]
      exact ih (enrollStep uid endD db hd) it hmem

/-- A course upsert for an already enrolled key is the identity. -/
theorem upsertCourse_id {db : DB} {uid cid : String}
    (h : courseEnrolled db uid cid) : upsertCourseEnrollment db uid cid = db := by
  obtain ⟨e, he, h1, h2⟩ := h
  unfold upsertCourseEnrollment
  rw [if_pos]
  exact List.any_eq_true.mpr ⟨e, he, (courseMatch_iff e uid cid).mpr ⟨h1, h2⟩⟩

/-- A journey upsert whose key already carries the written end date is the
identity. -/
theorem upsertJourneySet_id {db : DB} {uid jid : String} {endD : Nat}
    (h : journeyEnrolled db uid jid endD) :
    upsertJourneyEnrollmentSet db uid jid endD = db := by
  obtain ⟨⟨e, he, h1, h2⟩, hall⟩ := h
  unfold upsertJourneyEnrollmentSet
  rw [if_pos]
  · have hmap : db.enrollments.map
        (fun e => if e.userId == uid && e.journeyId == some jid then
          { e with endDate := some endD } else e) = db.enrollments := by
      have := List.map_congr_left (l := db.enrollments)
        (f := fun e => if e.userId == uid && e.journeyId == some jid then
          { e with endDate := some endD } else e) (g := id) ?_
      · simpa using this
      · intro a ha
        by_cases hc : (a.userId == uid && a.journeyId == some jid) = true
        · have hd := hall a ha ((journeyMatch_iff a uid jid).mp hc).1
            ((journeyMatch_iff a uid jid).mp hc).2
          simp only [if_pos hc, id]
          cases a
          simp_all
        · simp only [if_neg hc, id]
    rw [hmap]
  · exact List.any_eq_true.mpr ⟨e, he, (journeyMatch_iff e uid jid).mpr ⟨h1, h2⟩⟩

/-- One enrollment upsert whose item state is already established is the
identity. -/
theorem enrollStep_id {uid : String} {endD : Nat} {db : DB} {it : MetaItem}
    (h : itemEnrolled db uid endD it) : enrollStep uid endD db it = db := by
  cases hk : it.kind <;> simp only [itemEnrolled, enrollStep, hk] at h ⊢
  · exact upsertCourse_id h
  · exact upsertJourneySet_id h

/-- The enrollment loop over items whose state is already established is the
identity. -/
theorem enrollFold_id {uid : String} {endD : Nat} {items : List MetaItem}
    {db : DB} (h : ∀ it ∈ items, itemEnrolled db uid endD it) :
    items.foldl (enrollStep uid endD) db = db := by
  induction items with
  | nil => rfl
  | cons hd rest ih =>
    simp only [List.foldl_cons]
    rw [enrollStep_id (h hd (List.mem_cons_self hd rest))]
    exact ih (fun it hit => h it (List.mem_cons_of_mem hd hit))

/-- Item validation only fills `quantity`, `price` and `title`; the key
fields are untouched. -/
theorem validateItem_id (amount n : Nat) (it : MetaItem) :
    (validateItem amount n it).id = it.id := rfl

/-- Item validation leaves the item kind untouched. -/
theorem validateItem_kind (amount n : Nat) (it : MetaItem) :
    (validateItem amount n it).kind = it.kind := rfl

/-- Rows without a journey key survive every enrollment upsert unchanged. -/
theorem enrollStep_keeps_nonjourney {db : DB} {r : Enrollment}
    (uid : String) (endD : Nat) (it : MetaItem) (hr : r ∈ db.enrollments)
    (hj : r.journeyId = none) :
    r ∈ (enrollStep uid endD db it).enrollments := by
  cases hk : it.kind
  case course =>
    simp only [enrollStep, hk]
    exact upsertCourse_keeps _ _ hr
  case journey =>
    simp only [enrollStep, hk]
    rcases upsertJourneySet_mem uid it.id endD hr with hm | ⟨hc, _⟩
    · exact hm
    · rw [hj] at hc
      simp at hc

/-- Rows without a journey key survive the whole enrollment loop. -/
theorem enrollFold_keeps_nonjourney {db : DB} {r : Enrollment}
    (uid : String) (endD : Nat) (items : List MetaItem)
    (hr : r ∈ db.enrollments) (hj : r.journeyId = none) :
    r ∈ (items.foldl (enrollStep uid endD) db).enrollments := by
  induction items generalizing db with
  | nil => exact hr
  | cons hd rest ih =>
    exact ih (enrollStep_keeps_nonjourney uid endD hd hr hj)

/-- Along the enrollment loop, either the untimed course row for the key has
been created, or the key is still fresh. -/
theorem enrollStep_fresh_or_null (uid cid : String) (endD : Nat) (db : DB)
    (it : MetaItem)
    (h : (⟨uid, some cid, none, none⟩ : Enrollment) ∈ db.enrollments ∨
      freshCourse db uid cid) :
    (⟨uid, some cid, none, none⟩ : Enrollment) ∈
        (enrollStep uid endD db it).enrollments ∨
      freshCourse (enrollStep uid endD db it) uid cid := by
  rcases h with h | h
  · exact Or.inl (enrollStep_keeps_nonjourney uid endD it h rfl)
  · cases hk : it.kind
    case course =>
      simp only [enrollStep, hk]
      unfold upsertCourseEnrollment
      split
      case isTrue hc => exact Or.inr h
      case isFalse hc =>
        by_cases hid : it.id = cid
        · subst hid
          exact Or.inl (by simp)
        · right
          intro e he hbad
          rcases List.mem_append.mp he with he2 | he2
          · exact h e he2 hbad
          · simp only [List.mem_singleton] at he2
            subst he2
            exact hid (Option.some.inj hbad.2)
    case journey =>
      simp only [enrollStep, hk]
      right
      intro e he hbad
      unfold upsertJourneyEnrollmentSet at he
      split at he
      case isTrue h0 =>
        simp only at he
        obtain ⟨e1, he1, heq⟩ := List.mem_map.mp he
        by_cases hc : (e1.userId == uid && e1.journeyId == some it.id) = true
        · rw [if_pos hc] at heq
          subst heq
          exact h e1 he1 hbad
        · rw [if_neg hc] at heq
          subst heq
          exact h e1 he1 hbad
      case isFalse h0 =>
        rcases List.mem_append.mp he with he2 | he2
        · exact h e he2 hbad
        · simp only [List.mem_singleton] at he2
          subst he2
          cases hbad.2

/-- If a course item of the loop starts from a fresh key, the loop leaves the
untimed enrollment row for that key in the table. -/
theorem enrollFold_creates_null (uid cid : String) (endD : Nat)
    (items : List MetaItem) (db : DB) (itC : MetaItem)
    (hkind : itC.kind = ItemKind.course) (hid : itC.id = cid)
    (hmem : itC ∈ items)
    (h : (⟨uid, some cid, none, none⟩ : Enrollment) ∈ db.enrollments ∨
      freshCourse db uid cid) :
    (⟨uid, some cid, none, none⟩ : Enrollment) ∈
      (items.foldl (enrollStep uid endD) db).enrollments := by
  induction items generalizing db with
  | nil => cases hmem
  | cons hd rest ih =>
    rcases List.mem_cons.mp hmem with rfl | hmem2
    · -- the head is the course item itself: after its step the row exists
      simp only [List.foldl_cons]
      have hrow : (⟨uid, some cid, none, none⟩ : Enrollment) ∈
          (enrollStep uid endD db itC).enrollments := by
        rcases h with h | h
        · exact enrollStep_keeps_nonjourney uid endD itC h rfl
        · simp only [enrollStep, hkind]
          unfold upsertCourseEnrollment
          split
          case isTrue hc =>
            obtain ⟨e, he, hm⟩ := List.any_eq_true.mp hc
            have := (courseMatch_iff e uid itC.id).mp hm
            rw [hid] at this
            exact absurd this (h e he)
          case isFalse hc =>
            rw [hid]
            simp
      exact enrollFold_keeps_nonjourney uid endD rest hrow rfl
    · simp only [List.foldl_cons]
      exact ih (enrollStep uid endD db hd) hmem2
        (enrollStep_fresh_or_null uid cid endD db hd h)

/-- The payment update of `processApprovedPayment` does not move the gateway
key. -/
theorem papUpd_key (pid : String) (t : Nat) (md : Meta) (p : PaymentRec) :
    (papUpd pid t md p).mpPaymentId = p.mpPaymentId := by
  unfold papUpd
  split <;> rfl

/-- The payment update of `processApprovedPayment` is idempotent. -/
theorem papUpd_idem (pid : String) (t : Nat) (md : Meta) (p : PaymentRec) :
    papUpd pid t md (papUpd pid t md p) = papUpd pid t md p := by
  unfold papUpd
  by_cases h : (p.mpPaymentId == pid) = true <;> simp [h]

/-- A payment whose key does not match is untouched by the update. -/
theorem papUpd_of_ne_key {pid : String} {t : Nat} {md : Meta} {p : PaymentRec}
    (h : ¬(p.mpPaymentId == pid) = true) : papUpd pid t md p = p := by
  unfold papUpd
  rw [if_neg h]

/-- Re-updating the freshly created payment row changes nothing. -/
theorem papUpd_createRec (pid uid : String) (t : Nat) (md : Meta) (now : Nat)
    (vitems : List MetaItem) :
    papUpd pid t md (papCreateRec pid uid t md now vitems) =
      papCreateRec pid uid t md now vitems := by
  unfold papUpd papCreateRec
  simp

/-- Updating payments does not disturb which keys exist. -/
theorem any_key_map_papUpd (l : List PaymentRec) (pid : String) (t : Nat)
    (md : Meta) :
    (l.map (papUpd pid t md)).any (fun p => p.mpPaymentId == pid) =
      l.any (fun p => p.mpPaymentId == pid) := by
  induction l with
  | nil => rfl
  | cons p rest ih => simp [papUpd_key, ih]

/-- Applying the payment update twice over the table equals applying it
once. -/
theorem map_papUpd_idem (l : List PaymentRec) (pid : String) (t : Nat)
    (md : Meta) :
    (l.map (papUpd pid t md)).map (papUpd pid t md) = l.map (papUpd pid t md) := by
  rw [List.map_map]
  exact List.map_congr_left (fun p _ => papUpd_idem pid t md p)

/-- The payment upsert stage only touches the payment table. -/
theorem papPayments_frame (pid uid : String) (total : Nat) (md : Meta)
    (now : Nat) (vitems : List MetaItem) (db : DB) :
    (papPayments pid uid total md now vitems db).users = db.users ∧
    (papPayments pid uid total md now vitems db).enrollments = db.enrollments ∧
    (papPayments pid uid total md now vitems db).refunds = db.refunds := by
  unfold papPayments
  exact ⟨rfl, rfl, rfl⟩

/-- After the payment upsert, the gateway key exists in the table. -/
theorem papList_exists (pid uid : String) (total : Nat) (md : Meta)
    (now : Nat) (vitems : List MetaItem) (l : List PaymentRec) :
    (papList pid uid total md now vitems l).any
      (fun p => p.mpPaymentId == pid) = true := by
  unfold papList
  split
  case isTrue h =>
    rw [any_key_map_papUpd]
    exact h
  case isFalse h =>
    simp [papCreateRec]

/-- Re-running the payment upsert on its own output (at any later time, with
any item list) changes nothing: the row exists afterwards and the update
rewrites the same values. -/
theorem papList_idem (pid uid : String) (total : Nat) (md : Meta)
    (now now2 : Nat) (vitems vitems2 : List MetaItem) (l : List PaymentRec) :
    papList pid uid total md now2 vitems2 (papList pid uid total md now vitems l) =
      papList pid uid total md now vitems l := by
  have hex := papList_exists pid uid total md now vitems l
  conv_lhs => rw [papList]
  rw [if_pos hex]
  unfold papList
  split
  case isTrue h =>
    exact map_papUpd_idem l pid total md
  case isFalse h =>
    rw [List.map_append]
    have h0 := List.any_eq_false.mp (Bool.not_eq_true _ ▸ h)
    have h1 : l.map (papUpd pid total md) = l :=
      (List.map_congr_left (fun p hp => papUpd_of_ne_key (h0 p hp))).trans
        (List.map_id l)
    rw [h1]
    simp only [List.map_cons, List.map_nil, papUpd_createRec]

/-- Unfolding equation of `processApprovedPayment` when the user exists. -/
theorem pap_run (pid uid : String) (amt : Nat) (items : List MetaItem)
    (dur now : Nat) (db : DB) (hu : userExists db uid = true) :
    processApprovedPayment pid uid amt items dur now db =
      some ((items.map (validateItem amt items.length)).foldl
        (enrollStep uid (now + dur))
        (papPayments pid uid
          (((items.map (validateItem amt items.length)).map
            (fun it => it.price.getD 0)).sum)
          (papMeta (items.map (validateItem amt items.length)) dur)
          now (items.map (validateItem amt items.length)) db)) := by
  unfold processApprovedPayment
  rw [if_pos hu]

/-- Unfolding equation of `processApprovedPayment` when `ensureUserExists`
throws. -/
theorem pap_none (pid uid : String) (amt : Nat) (items : List MetaItem)
    (dur now : Nat) (db : DB) (hu : ¬ userExists db uid = true) :
    processApprovedPayment pid uid amt items dur now db = none := by
  unfold processApprovedPayment
  rw [if_neg hu]

/-- The established state of a course item does not mention the end date. -/
theorem itemEnrolled_course_any (db : DB) (uid : String) (d1 d2 : Nat)
    (it : MetaItem) (hk : it.kind = ItemKind.course)
    (h : itemEnrolled db uid d1 it) : itemEnrolled db uid d2 it := by
  simp only [itemEnrolled, hk] at h ⊢
  exact h

/-- Re-running `processApprovedPayment` on its own output returns that output
unchanged, provided the two runs happen at the same instant or every item is
a course (a journey upsert would rewrite the end date from the clock). -/
theorem pap_idem (pid uid : String) (amt : Nat) (items : List MetaItem)
    (dur t1 t2 : Nat) (db db1 : DB)
    (h : processApprovedPayment pid uid amt items dur t1 db = some db1)
    (hsame : t1 = t2 ∨ ∀ it ∈ items, it.kind = ItemKind.course) :
    processApprovedPayment pid uid amt items dur t2 db1 = some db1 := by
  by_cases hu : userExists db uid = true
  case neg =>
    rw [pap_none pid uid amt items dur t1 db hu] at h
    cases h
  case pos =>
    rw [pap_run pid uid amt items dur t1 db hu] at h
    injection h with h1
    set vitems := items.map (validateItem amt items.length) with hv
    set total := (vitems.map (fun it => it.price.getD 0)).sum with ht
    set md := papMeta vitems dur with hm
    have husers : db1.users = db.users := by
      rw [← h1]
      exact ((enrollFold_frame _ _ _ _).1).trans
        (papPayments_frame pid uid total md t1 vitems db).1
    have hu1 : userExists db1 uid = true := by
      unfold userExists at hu ⊢
      rw [husers]
      exact hu
    rw [pap_run pid uid amt items dur t2 db1 hu1]
    congr 1
    have hp1 : db1.payments = papList pid uid total md t1 vitems db.payments := by
      rw [← h1]
      exact (enrollFold_frame _ _ _ _).2.1
    have hpay : papPayments pid uid total md t2 vitems db1 = db1 := by
      unfold papPayments
      rw [hp1, papList_idem, ← hp1]
    have hest : ∀ it ∈ vitems, itemEnrolled db1 uid (t2 + dur) it := by
      intro it hit
      have hbase := enrollFold_establishes uid (t1 + dur) vitems
        (papPayments pid uid total md t1 vitems db) it hit
      rw [h1] at hbase
      rcases hsame with rfl | hall
      · exact hbase
      · obtain ⟨it0, hit0, rfl⟩ := List.mem_map.mp hit
        exact itemEnrolled_course_any _ _ _ _ _
          (by rw [validateItem_kind]; exact hall it0 hit0) hbase
    rw [hpay, enrollFold_id hest]

/-- Filtering twice with the same predicate equals filtering once. -/
theorem filter_self_idem {α : Type} (l : List α) (q : α → Bool) :
    (l.filter q).filter q = l.filter q := by
  rw [List.filter_filter]
  refine List.filter_congr (fun a _ => ?_)
  cases h : q a <;> simp [h]

/-- The `updateMany` status write of the second webhook handler is
idempotent on the payment table. -/
theorem setStatus_idem (l : List PaymentRec) (pid c : String) :
    ((l.map (fun p => if p.mpPaymentId == pid then { p with status := c } else p)).map
      (fun p => if p.mpPaymentId == pid then { p with status := c } else p)) =
      l.map (fun p => if p.mpPaymentId == pid then { p with status := c } else p) := by
  rw [List.map_map]
  refine List.map_congr_left (fun p _ => ?_)
  show (fun q : PaymentRec => if q.mpPaymentId == pid then { q with status := c } else q)
      ((fun q : PaymentRec => if q.mpPaymentId == pid then { q with status := c } else q) p) =
    (fun q : PaymentRec => if q.mpPaymentId == pid then { q with status := c } else q) p
  by_cases h : (p.mpPaymentId == pid) = true
  · have h2 : (({ p with status := c } : PaymentRec).mpPaymentId == pid) = true := h
    simp only [if_pos h, if_pos h2]
  · simp only [if_neg h]

/-- Enrollment upserts do not disturb which payment keys exist. -/
theorem paymentExists_upsertCourse (db : DB) (u i pid : String) :
    paymentExists (upsertCourseEnrollment db u i) pid = paymentExists db pid := by
  unfold upsertCourseEnrollment
  split <;> rfl

/-- Enrollment upserts do not disturb which payment keys exist. -/
theorem paymentExists_upsertKeep (db : DB) (u i : String) (endD : Nat) (pid : String) :
    paymentExists (upsertJourneyEnrollmentKeep db u i endD) pid = paymentExists db pid := by
  unfold upsertJourneyEnrollmentKeep
  split <;> rfl

/-- Redelivering any webhook notification to the second handler, at any later
time, leaves the database unchanged: error paths write nothing, the
refunded/cancelled writes are idempotent, and the existence guard drops a
redelivered approved notification. -/
theorem webhook2_idem (body : Option Body) (gw : Gw) (t1 t2 : Nat) (db : DB) :
    (webhookPost2 body gw t2 (webhookPost2 body gw t1 db).1).1 =
      (webhookPost2 body gw t1 db).1 := by
  cases body with
  | none => rfl
  | some b =>
    simp only [webhookPost2]
    by_cases h1 : (!(validTypes.contains b.btype)) = true
    · simp only [if_pos h1]
    · simp only [if_neg h1]
      cases hid : b.dataId with
      | none => simp only [hid]
      | some pid =>
        simp only [hid]
        cases hgw : gw.lookup pid with
        | none => simp only [hgw]
        | some payment =>
          simp only [hgw]
          by_cases h2 : (isFalsyS payment.meta.userId || payment.meta.mtype.isNone ||
            isFalsyS payment.meta.mid) = true
          · simp only [if_pos h2]
          · simp only [if_neg h2]
            by_cases h3 : (payment.status == "refunded" || payment.status == "cancelled") = true
            · simp only [if_pos h3]
              cases hk : payment.meta.mtype.getD ItemKind.course with
              | course =>
                simp only [hk, deleteCourseEnrollments]
                rw [setStatus_idem, filter_self_idem]
              | journey =>
                simp only [hk, deleteJourneyEnrollments]
                rw [setStatus_idem, filter_self_idem]
            · simp only [if_neg h3]
              by_cases h4 : (payment.status != "approved") = true
              · simp only [if_pos h4]
              · simp only [if_neg h4]
                by_cases h5 : paymentExists db pid = true
                · simp only [if_pos h5]
                · simp only [if_neg h5]
                  cases hk : payment.meta.mtype.getD ItemKind.course with
                  | course =>
                    simp only [hk]
                    rw [if_pos]
                    rw [paymentExists_upsertCourse]
                    simp [paymentExists, w2CreateRec]
                  | journey =>
                    simp only [hk]
                    rw [if_pos]
                    rw [paymentExists_upsertKeep]
                    simp [paymentExists, w2CreateRec]

/-- Every status string the status map can produce is a lifecycle state. -/
theorem statusStr_mem (ps : PStatus) : statusStr ps ∈ lifecycleStrs := by
  cases ps <;> simp [statusStr, lifecycleStrs]

/-- A status-respecting rewrite of the payment table preserves the
invariant. -/
theorem statusInv_map {l : List PaymentRec} {f : PaymentRec → PaymentRec}
    (hf : ∀ p, (f p).status = p.status ∨ (f p).status ∈ lifecycleStrs)
    (h : ∀ p ∈ l, p.status ∈ lifecycleStrs) :
    ∀ p ∈ l.map f, p.status ∈ lifecycleStrs := by
  intro p hp
  obtain ⟨q, hq, rfl⟩ := List.mem_map.mp hp
  rcases hf q with he | he
  · rw [he]
    exact h q hq
  · exact he

/-- Appending a row with a lifecycle status preserves the invariant. -/
theorem statusInv_append {l : List PaymentRec} {r : PaymentRec}
    (hr : r.status ∈ lifecycleStrs) (h : ∀ p ∈ l, p.status ∈ lifecycleStrs) :
    ∀ p ∈ l ++ [r], p.status ∈ lifecycleStrs := by
  intro p hp
  rcases List.mem_append.mp hp with hp2 | hp2
  · exact h p hp2
  · simp only [List.mem_singleton] at hp2
    subst hp2
    exact hr

/-- The payment upsert of `processApprovedPayment` writes only `APPROVED`. -/
theorem statusInv_papList (pid uid : String) (total : Nat) (md : Meta)
    (now : Nat) (vitems : List MetaItem) {l : List PaymentRec}
    (h : ∀ p ∈ l, p.status ∈ lifecycleStrs) :
    ∀ p ∈ papList pid uid total md now vitems l, p.status ∈ lifecycleStrs := by
  unfold papList
  split
  · refine statusInv_map (fun p => ?_) h
    unfold papUpd
    split
    · right
      simp [lifecycleStrs]
    · left
      rfl
  · refine statusInv_append ?_ h
    simp [papCreateRec, lifecycleStrs]

/-- `processApprovedPayment` preserves the status invariant. -/
theorem statusInv_pap {pid uid : String} {amt : Nat} {items : List MetaItem}
    {dur now : Nat} {db db1 : DB}
    (h : processApprovedPayment pid uid amt items dur now db = some db1)
    (hinv : statusInv db) : statusInv db1 := by
  by_cases hu : userExists db uid = true
  case neg =>
    rw [pap_none pid uid amt items dur now db hu] at h
    cases h
  case pos =>
    rw [pap_run pid uid amt items dur now db hu] at h
    injection h with h1
    intro p hp
    rw [← h1] at hp
    rw [(enrollFold_frame _ _ _ _).2.1] at hp
    exact statusInv_papList _ _ _ _ _ _ hinv p hp

/-- The pending-branch upsert writes only the mapped status. -/
theorem statusInv_pendingUpsert {db : DB} (pid uid : String) (ps : PStatus)
    (amount : Nat) (itemsData : List MetaItem) (now : Nat)
    (hinv : statusInv db) :
    statusInv (pendingUpsert db pid uid (statusStr ps) amount itemsData now) := by
  unfold pendingUpsert
  split
  · intro p hp
    refine statusInv_map (fun q => ?_) hinv p hp
    split
    · right
      exact statusStr_mem ps
    · left
      rfl
  · intro p hp
    refine statusInv_append ?_ hinv p hp
    exact statusStr_mem ps

/-- The negative-status update writes only the mapped status. -/
theorem statusInv_updateByMp {db db1 : DB} {pid : String} (ps : PStatus)
    (h : updatePaymentStatusByMp db pid (statusStr ps) = some db1)
    (hinv : statusInv db) : statusInv db1 := by
  unfold updatePaymentStatusByMp at h
  split at h
  · injection h with h1
    intro p hp
    rw [← h1] at hp
    refine statusInv_map (fun q => ?_) hinv p hp
    split
    · right
      exact statusStr_mem ps
    · left
      rfl
  · cases h

/-- The primary webhook handler writes only lifecycle statuses. -/
theorem webhook1_statusInv (body : Option Body) (gw : Gw) (now : Nat) (db : DB)
    (hinv : statusInv db) : statusInv (webhookPost1 body gw now db).1 := by
  show statusInv (webhookPost1Core body gw now db).1
  cases body with
  | none => exact hinv
  | some b =>
    simp only [webhookPost1Core]
    by_cases h1 : (!(validTypes.contains b.btype)) = true
    · simp only [if_pos h1]
      exact hinv
    · simp only [if_neg h1]
      cases hid : b.dataId with
      | none => simp only [hid]; exact hinv
      | some pid =>
        simp only [hid]
        cases hgp : getPaymentWithFallback gw db pid with
        | none => simp only [hgp]; exact hinv
        | some payment =>
          simp only [hgp]
          by_cases h2 : isFalsyS (resolveUserId payment) = true
          · simp only [if_pos h2]
            exact hinv
          · simp only [if_neg h2]
            by_cases h3 : ((resolveItems payment.meta).length == 0) = true
            · simp only [if_pos h3]
              exact hinv
            · simp only [if_neg h3]
              by_cases h4 : (negStatuses.contains (jsLower payment.status)) = true
              · simp only [if_pos h4]
                cases hupd : updatePaymentStatusByMp db pid
                  (statusStr (mappedStatus (jsLower payment.status))) with
                | none => simp only [hupd]; exact hinv
                | some db1 =>
                  simp only [hupd]
                  have hinv1 := statusInv_updateByMp _ hupd hinv
                  by_cases h5 : (jsLower payment.status == "refunded") = true
                  · simp only [if_pos h5]
                    intro p hp
                    rw [(revokeUserAccess_frame _ _ _).2.1] at hp
                    exact hinv1 p hp
                  · simp only [if_neg h5]
                    exact hinv1
              · simp only [if_neg h4]
                by_cases h6 : (jsLower payment.status == "approved") = true
                · simp only [if_pos h6]
                  cases hpap : processApprovedPayment pid ((resolveUserId payment).getD "")
                    (payment.transaction_amount.getD 0) (resolveItems payment.meta)
                    (durationOrDefault payment.meta) now db with
                  | none => simp only [hpap]; exact hinv
                  | some db1 =>
                    simp only [hpap]
                    exact statusInv_pap hpap hinv
                · simp only [if_neg h6]
                  by_cases h7 : userExists db ((resolveUserId payment).getD "") = true
                  · simp only [if_pos h7]
                    exact statusInv_pendingUpsert pid ((resolveUserId payment).getD "")
                      (mappedStatus (jsLower payment.status)) _ _ now hinv
                  · simp only [if_neg h7]
                    exact hinv

/-- The course enrollment upsert only touches the enrollment table. -/
theorem upsertCourse_frame (db : DB) (uid cid : String) :
    (upsertCourseEnrollment db uid cid).users = db.users ∧
    (upsertCourseEnrollment db uid cid).payments = db.payments ∧
    (upsertCourseEnrollment db uid cid).refunds = db.refunds := by
  unfold upsertCourseEnrollment
  split <;> simp

/-- The keep-variant journey upsert only touches the enrollment table. -/
theorem upsertKeep_frame (db : DB) (uid jid : String) (endD : Nat) :
    (upsertJourneyEnrollmentKeep db uid jid endD).users = db.users ∧
    (upsertJourneyEnrollmentKeep db uid jid endD).payments = db.payments ∧
    (upsertJourneyEnrollmentKeep db uid jid endD).refunds = db.refunds := by
  unfold upsertJourneyEnrollmentKeep
  split <;> simp

/-- The second webhook handler writes only lifecycle statuses. -/
theorem webhook2_statusInv (body : Option Body) (gw : Gw) (now : Nat) (db : DB)
    (hinv : statusInv db) : statusInv (webhookPost2 body gw now db).1 := by
  cases body with
  | none => exact hinv
  | some b =>
    simp only [webhookPost2]
    by_cases h1 : (!(validTypes.contains b.btype)) = true
    · simp only [if_pos h1]
      exact hinv
    · simp only [if_neg h1]
      cases hid : b.dataId with
      | none => simp only [hid]; exact hinv
      | some pid =>
        simp only [hid]
        cases hgw : gw.lookup pid with
        | none => simp only [hgw]; exact hinv
        | some payment =>
          simp only [hgw]
          by_cases h2 : (isFalsyS payment.meta.userId || payment.meta.mtype.isNone ||
            isFalsyS payment.meta.mid) = true
          · simp only [if_pos h2]
            exact hinv
          · simp only [if_neg h2]
            by_cases h3 : (payment.status == "refunded" || payment.status == "cancelled") = true
            · simp only [if_pos h3]
              have hup : jsUpper payment.status ∈ lifecycleStrs := by
                have h3p : payment.status = "refunded" ∨ payment.status = "cancelled" := by
                  simpa using h3
                rcases h3p with h | h
                · rw [h]
                  decide
                · rw [h]
                  decide
              have hmid : statusInv { db with payments := (db.payments.map
                  (fun p => if p.mpPaymentId == pid then
                    { p with status := jsUpper payment.status } else p)) } := by
                intro p hp
                refine statusInv_map (fun q => ?_) hinv p hp
                split
                · right
                  exact hup
                · left
                  rfl
              cases hk : payment.meta.mtype.getD ItemKind.course with
              | course =>
                simp only [hk]
                intro p hp
                rw [(deleteCourse_frame _ _ _).2.1] at hp
                exact hmid p hp
              | journey =>
                simp only [hk]
                intro p hp
                rw [(deleteJourney_frame _ _ _).2.1] at hp
                exact hmid p hp
            · simp only [if_neg h3]
              by_cases h4 : (payment.status != "approved") = true
              · simp only [if_pos h4]
                exact hinv
              · simp only [if_neg h4]
                by_cases h5 : paymentExists db pid = true
                · simp only [if_pos h5]
                  exact hinv
                · simp only [if_neg h5]
                  have hmid : statusInv { db with payments := (db.payments ++
                      [w2CreateRec pid (payment.meta.userId.getD "")
                        (payment.transaction_amount.getD 0)
                        (payment.meta.mtype.getD ItemKind.course)
                        (payment.meta.mid.getD "") now]) } := by
                    intro p hp
                    refine statusInv_append ?_ hinv p hp
                    simp [w2CreateRec, lifecycleStrs]
                  cases hk : payment.meta.mtype.getD ItemKind.course with
                  | course =>
                    simp only [hk]
                    rw [hk] at hmid
                    intro p hp
                    rw [(upsertCourse_frame _ _ _).2.1] at hp
                    exact hmid p hp
                  | journey =>
                    simp only [hk]
                    rw [hk] at hmid
                    intro p hp
                    rw [(upsertKeep_frame _ _ _ _).2.1] at hp
                    exact hmid p hp

/-- The revocation loop of the refund endpoint is the revocation loop of the
webhook handler run over the payment's items. -/
theorem revokeByPayment_eq (db : DB) (uid : String) (p : PaymentRec) :
    revokeByPayment db uid p = revokeUserAccess uid (paymentItemsOf p) db := rfl

/-- The refund endpoint writes only lifecycle statuses into payment rows
(the gateway-reported refund status goes into the refund row, not the
payment row). -/
theorem refundPost_statusInv (paymentId uid : String) (gwRefund : Option GwRefund)
    (now : Nat) (db : DB) (hinv : statusInv db) :
    statusInv (refundPost paymentId uid gwRefund now db).1 := by
  simp only [refundPost]
  cases hfind : findPaymentById db paymentId with
  | none => simp only [hfind]; exact hinv
  | some payment =>
    simp only [hfind]
    by_cases h1 : (payment.userId != uid) = true
    · simp only [if_pos h1]
      exact hinv
    · simp only [if_neg h1]
      by_cases h2 : hasApprovedRefund db paymentId = true
      · simp only [if_pos h2]
        exact hinv
      · simp only [if_neg h2]
        by_cases h3 : payment.createdAt + 30 < now
        · simp only [if_pos h3]
          exact hinv
        · simp only [if_neg h3]
          cases gwRefund with
          | none => exact hinv
          | some mr =>
            dsimp only
            intro p hp
            rw [revokeByPayment_eq, (revokeUserAccess_frame _ _ _).2.1] at hp
            refine statusInv_map (fun q => ?_) ?_ p hp
            · split
              · right
                simp [lifecycleStrs]
              · left
                rfl
            · exact hinv

/-- The payment creation handler writes only lifecycle statuses. -/
theorem payCreate_statusInv (uid pid : String) (items : List MetaItem)
    (totalCents now : Nat) (db : DB) (hinv : statusInv db) :
    statusInv (payCreate uid pid items totalCents now db) := by
  unfold payCreate
  split
  · intro p hp
    refine statusInv_map (fun q => ?_) hinv p hp
    split
    · right
      simp [lifecycleStrs]
    · left
      rfl
  · intro p hp
    refine statusInv_append ?_ hinv p hp
    simp [lifecycleStrs]

/-- When the primary webhook handler processes a gateway status of
`refunded` for a recorded payment, it deletes every enrollment of the
resolved user for every processed item. -/
theorem webhook1_refunded_revokes (b : Body) (gw : Gw) (now : Nat) (db : DB)
    (pid : String) (gwp : GwPayment) (uid : String) (items : List MetaItem)
    (hb : b.btype = "payment") (hid : b.dataId = some pid)
    (hgp : getPaymentWithFallback gw db pid = some gwp)
    (hst : jsLower gwp.status = "refunded")
    (huid : resolveUserId gwp = some uid) (hune : uid ≠ "")
    (hitems : resolveItems gwp.meta = items) (hne : items ≠ [])
    (hex : paymentExists db pid = true) :
    ∀ it ∈ items, noItemEnrollment (webhookPost1 (some b) gw now db).1 uid it := by
  show ∀ it ∈ items, noItemEnrollment (webhookPost1Core (some b) gw now db).1 uid it
  simp only [webhookPost1Core, hb, hid, hgp, hst, huid, hitems]
  rw [if_neg (show ¬(!(validTypes.contains "payment")) = true by decide)]
  rw [if_neg (show ¬(isFalsyS (some uid)) = true by simp [isFalsyS, hune])]
  rw [if_neg (show ¬((items.length == 0) = true) by
    simp [List.length_eq_zero, hne])]
  rw [if_pos (show (negStatuses.contains "refunded") = true by decide)]
  simp only [updatePaymentStatusByMp, if_pos hex]
  rw [if_pos (show (("refunded" : String) == "refunded") = true by decide)]
  dsimp only [Option.getD]
  exact revokeUserAccess_clears uid items _

/-- When all guards of the refund endpoint pass and the gateway reversal
succeeds, the endpoint reports success and deletes every enrollment of the
user for every item of the payment. -/
theorem refundPost_revokes (paymentId uid : String) (gwr : GwRefund) (now : Nat)
    (db : DB) (p : PaymentRec)
    (hfind : findPaymentById db paymentId = some p)
    (howner : p.userId = uid)
    (hnoref : hasApprovedRefund db paymentId = false)
    (htime : ¬ p.createdAt + 30 < now) :
    (refundPost paymentId uid (some gwr) now db).2 = ⟨200, "success"⟩ ∧
    ∀ it ∈ paymentItemsOf p,
      noItemEnrollment (refundPost paymentId uid (some gwr) now db).1 uid it := by
  simp only [refundPost, hfind]
  rw [if_neg (show ¬(p.userId != uid) = true by simp [howner])]
  rw [if_neg (show ¬(hasApprovedRefund db paymentId = true) by simp [hnoref])]
  rw [if_neg htime]
  refine ⟨rfl, ?_⟩
  dsimp only
  rw [revokeByPayment_eq]
  exact revokeUserAccess_clears uid (paymentItemsOf p) _

/-- The refund endpoint creates a refund row and reports success exactly
when its four guards pass and the gateway reversal succeeds; otherwise it
leaves the database unchanged and reports a non-200 error. -/
theorem refund_characterization (paymentId uid : String)
    (gwRefund : Option GwRefund) (now : Nat) (db : DB) :
    ((refundGuardsOK paymentId uid now db ∧ gwRefund ≠ none) →
      (refundPost paymentId uid gwRefund now db).1.refunds.length =
        db.refunds.length + 1 ∧
      (refundPost paymentId uid gwRefund now db).2 = ⟨200, "success"⟩) ∧
    (¬(refundGuardsOK paymentId uid now db ∧ gwRefund ≠ none) →
      (refundPost paymentId uid gwRefund now db).1 = db ∧
      (refundPost paymentId uid gwRefund now db).2.status ≠ 200) := by
  constructor
  · rintro ⟨⟨p, hfind, howner, hnoref, htime⟩, hg⟩
    cases gwRefund with
    | none => exact absurd rfl hg
    | some mr =>
      simp only [refundPost, hfind]
      rw [if_neg (show ¬(p.userId != uid) = true by simp [howner])]
      rw [if_neg (show ¬(hasApprovedRefund db paymentId = true) by simp [hnoref])]
      rw [if_neg htime]
      constructor
      · dsimp only
        rw [revokeByPayment_eq, (revokeUserAccess_frame _ _ _).2.2]
        simp
      · rfl
  · intro hng
    cases hfind : findPaymentById db paymentId with
    | none =>
      simp only [refundPost, hfind]
      exact ⟨by simp, by simp⟩
    | some p =>
      simp only [refundPost, hfind]
      by_cases h1 : (p.userId != uid) = true
      · rw [if_pos h1]
        exact ⟨by simp, by simp⟩
      · rw [if_neg h1]
        by_cases h2 : hasApprovedRefund db paymentId = true
        · rw [if_pos h2]
          exact ⟨by simp, by simp⟩
        · rw [if_neg h2]
          by_cases h3 : p.createdAt + 30 < now
          · rw [if_pos h3]
            exact ⟨by simp, by simp⟩
          · rw [if_neg h3]
            cases gwRefund with
            | none => exact ⟨by simp, by simp⟩
            | some mr =>
              exfalso
              apply hng
              refine ⟨⟨p, hfind, ?_, ?_, h3⟩, by simp⟩
              · simpa using h1
              · simpa using h2

/-! ## Claims -/

/-- C1: processing the same approved webhook notification twice, the second
run starting from the state left by the first, leaves the database identical
to processing it once — provided the second run of the primary handler's
`processApprovedPayment` happens at the same instant or every item is a
course (a journey enrollment's end date is recomputed from the clock); the
second webhook implementation is idempotent at any redelivery time thanks to
its existence guard. -/
theorem C1_approved_processing_idempotency :
    (∀ (pid uid : String) (amt : Nat) (items : List MetaItem)
      (dur t1 t2 : Nat) (db db1 : DB),
      processApprovedPayment pid uid amt items dur t1 db = some db1 →
      (t1 = t2 ∨ ∀ it ∈ items, it.kind = ItemKind.course) →
      processApprovedPayment pid uid amt items dur t2 db1 = some db1) ∧
    (∀ (body : Option Body) (gw : Gw) (t1 t2 : Nat) (db : DB),
      (webhookPost2 body gw t2 (webhookPost2 body gw t1 db).1).1 =
        (webhookPost2 body gw t1 db).1) :=
  ⟨pap_idem, webhook2_idem⟩

/-- C1 counterexample: redelivering an approved payment with a journey item
one instant later moves the journey enrollment's end date, so the database
state after the second `processApprovedPayment` run differs from the state
after the first. -/
theorem C1_journey_redelivery_moves_end_date :
    processApprovedPayment "p1" "u" 100
        [⟨"j1", ItemKind.journey, none, none, none⟩] 12 1
        ((processApprovedPayment "p1" "u" 100
          [⟨"j1", ItemKind.journey, none, none, none⟩] 12 0
          ⟨["u"], [], [], []⟩).getD ⟨[], [], [], []⟩) ≠
      processApprovedPayment "p1" "u" 100
        [⟨"j1", ItemKind.journey, none, none, none⟩] 12 0
        ⟨["u"], [], [], []⟩ := by
  decide

/-- C1 witness: a same-instant redelivery of a course payment reproduces the
state of the first run exactly. -/
theorem C1_approved_processing_idempotency_witness :
    processApprovedPayment "p1" "u" 100
        [⟨"c1", ItemKind.course, none, none, none⟩] 12 0
        ((processApprovedPayment "p1" "u" 100
          [⟨"c1", ItemKind.course, none, none, none⟩] 12 0
          ⟨["u"], [], [], []⟩).getD ⟨[], [], [], []⟩) =
      processApprovedPayment "p1" "u" 100
        [⟨"c1", ItemKind.course, none, none, none⟩] 12 0
        ⟨["u"], [], [], []⟩ := by
  have h := C1_approved_processing_idempotency.1 "p1" "u" 100
    [⟨"c1", ItemKind.course, none, none, none⟩] 12 0 0 ⟨["u"], [], [], []⟩
    ((processApprovedPayment "p1" "u" 100
      [⟨"c1", ItemKind.course, none, none, none⟩] 12 0
      ⟨["u"], [], [], []⟩).getD ⟨[], [], [], []⟩) (by decide) (Or.inl rfl)
  rw [h]
  decide

/-- C2 (amended): the out-of-order guard holds in the second webhook
implementation: when the gateway reports `approved` for a payment whose row
already exists with status `REFUNDED` or `CANCELLED`, the handler leaves the
database unchanged — the status is never set back to `APPROVED` and no
enrollment is created. -/
theorem C2_second_handler_out_of_order_guard (b : Body) (gw : Gw) (now : Nat)
    (db : DB) (pid : String) (gwp : GwPayment) (rec : PaymentRec)
    (hb : b.btype = "payment") (hid : b.dataId = some pid)
    (hgw : gw.lookup pid = some gwp) (hst : gwp.status = "approved")
    (hmem : rec ∈ db.payments) (hkey : rec.mpPaymentId = pid)
    (_hstat : rec.status = "REFUNDED" ∨ rec.status = "CANCELLED") :
    (webhookPost2 (some b) gw now db).1 = db := by
  simp only [webhookPost2, hb, hid, hgw, hst]
  rw [if_neg (show ¬(!(validTypes.contains "payment")) = true by decide)]
  by_cases h2 : (isFalsyS gwp.meta.userId || gwp.meta.mtype.isNone ||
    isFalsyS gwp.meta.mid) = true
  · rw [if_pos h2]
  · rw [if_neg h2]
    rw [if_neg (show ¬((("approved" : String) == "refunded" ||
      ("approved" : String) == "cancelled") = true) by decide)]
    rw [if_neg (show ¬((("approved" : String) != "approved") = true) by decide)]
    rw [if_pos (show paymentExists db pid = true from
      List.any_eq_true.mpr ⟨rec, hmem, by rw [hkey]; exact beq_self_eq_true pid⟩)]

/-- C2 counterexample: the primary webhook handler does not guard
out-of-order delivery — an approved notification for a payment already
recorded as `REFUNDED` sets the row back to `APPROVED` and re-creates the
enrollment. -/
theorem C2_primary_handler_reapproves_refunded :
    ((webhookPost1 (some ⟨"payment", some "p1"⟩)
        ⟨[("p1", ⟨"approved",
          ⟨some "u", some [⟨"c1", ItemKind.course, none, none, none⟩],
            none, none, none, none⟩, some 10, none⟩)]⟩ 5
        ⟨["u"], [⟨"p1", "p1", "u", "REFUNDED", 10, meta0, none, none, none,
          [], 0⟩], [], []⟩).1.payments.map PaymentRec.status = ["APPROVED"]) ∧
    ((webhookPost1 (some ⟨"payment", some "p1"⟩)
        ⟨[("p1", ⟨"approved",
          ⟨some "u", some [⟨"c1", ItemKind.course, none, none, none⟩],
            none, none, none, none⟩, some 10, none⟩)]⟩ 5
        ⟨["u"], [⟨"p1", "p1", "u", "REFUNDED", 10, meta0, none, none, none,
          [], 0⟩], [], []⟩).1.enrollments =
      [⟨"u", some "c1", none, none⟩]) := by
  decide

/-- C2 witness: a concrete approved redelivery for a refunded payment row is
a no-op in the second webhook implementation. -/
theorem C2_second_handler_out_of_order_guard_witness :
    (webhookPost2 (some ⟨"payment", some "p1"⟩)
        ⟨[("p1", ⟨"approved",
          ⟨some "u", some [⟨"c1", ItemKind.course, none, none, none⟩],
            none, none, none, none⟩, some 10, none⟩)]⟩ 5
        ⟨["u"], [⟨"p1", "p1", "u", "REFUNDED", 10, meta0, none, none, none,
          [], 0⟩], [], []⟩).1 =
      ⟨["u"], [⟨"p1", "p1", "u", "REFUNDED", 10, meta0, none, none, none,
        [], 0⟩], [], []⟩ :=
  C2_second_handler_out_of_order_guard ⟨"payment", some "p1"⟩
    ⟨[("p1", ⟨"approved",
      ⟨some "u", some [⟨"c1", ItemKind.course, none, none, none⟩],
        none, none, none, none⟩, some 10, none⟩)]⟩ 5
    ⟨["u"], [⟨"p1", "p1", "u", "REFUNDED", 10, meta0, none, none, none,
      [], 0⟩], [], []⟩ "p1"
    ⟨"approved", ⟨some "u", some [⟨"c1", ItemKind.course, none, none, none⟩],
      none, none, none, none⟩, some 10, none⟩
    ⟨"p1", "p1", "u", "REFUNDED", 10, meta0, none, none, none, [], 0⟩
    rfl rfl (by decide) rfl (by decide) rfl (Or.inl rfl)

/-- C3: the primary webhook handler maps `pending`, `in_process` and
`in_mediation` to `PENDING`, `approved` to `APPROVED`, `refunded` to
`REFUNDED`, `cancelled` to `CANCELLED`, `rejected` and `charged_back` to
`FAILED`, and any unrecognized status string to `PENDING`. -/
theorem C3_gateway_status_mapping :
    mappedStatus "pending" = PStatus.PENDING ∧
    mappedStatus "in_process" = PStatus.PENDING ∧
    mappedStatus "in_mediation" = PStatus.PENDING ∧
    mappedStatus "approved" = PStatus.APPROVED ∧
    mappedStatus "refunded" = PStatus.REFUNDED ∧
    mappedStatus "cancelled" = PStatus.CANCELLED ∧
    mappedStatus "rejected" = PStatus.FAILED ∧
    mappedStatus "charged_back" = PStatus.FAILED ∧
    ∀ s, s ∉ statusKeys → mappedStatus s = PStatus.PENDING := by
  refine ⟨by decide, by decide, by decide, by decide, by decide, by decide,
    by decide, by decide, ?_⟩
  intro s hs
  simp only [statusKeys, List.mem_cons, List.not_mem_nil, or_false,
    not_or] at hs
  obtain ⟨h1, h2, h3, h4, h5, h6, h7, h8⟩ := hs
  simp [mappedStatus, paymentStatusMap, h1, h2, h3, h4, h5, h6, h7, h8]

/-- C3 witness: an unrecognized gateway status falls back to `PENDING`. -/
theorem C3_gateway_status_mapping_witness :
    "chargeback_dispute" ∉ statusKeys ∧
      mappedStatus "chargeback_dispute" = PStatus.PENDING :=
  ⟨by decide,
    C3_gateway_status_mapping.2.2.2.2.2.2.2.2 "chargeback_dispute" (by decide)⟩

/-- C4 (amended): after `processApprovedPayment` succeeds, every course item
has an enrollment for the user — created untimed (`endDate` null) when no
enrollment pre-existed, while a pre-existing course enrollment keeps its end
date — and every journey item has an enrollment whose end date is the
processing time plus `durationMonths`; `durationMonths` defaults to 12 when
absent from the payment metadata. -/
theorem C4_approved_enrollment_provisioning :
    (∀ (pid uid : String) (amt : Nat) (items : List MetaItem) (dm now : Nat)
      (db db1 : DB),
      processApprovedPayment pid uid amt items dm now db = some db1 →
      (∀ it ∈ items, it.kind = ItemKind.course →
        (∃ e ∈ db1.enrollments, e.userId = uid ∧ e.courseId = some it.id) ∧
        (freshCourse db uid it.id →
          (⟨uid, some it.id, none, none⟩ : Enrollment) ∈ db1.enrollments)) ∧
      (∀ it ∈ items, it.kind = ItemKind.journey →
        ∃ e ∈ db1.enrollments, e.userId = uid ∧ e.journeyId = some it.id ∧
          e.endDate = some (now + dm))) ∧
    (∀ m : Meta, m.durationMonths = none → durationOrDefault m = 12) := by
  constructor
  · intro pid uid amt items dm now db db1 h
    by_cases hu : userExists db uid = true
    case neg =>
      rw [pap_none pid uid amt items dm now db hu] at h
      cases h
    case pos =>
      rw [pap_run pid uid amt items dm now db hu] at h
      injection h with h1
      constructor
      · intro it hit hk
        have hvmem : validateItem amt items.length it ∈
            items.map (validateItem amt items.length) :=
          List.mem_map_of_mem _ hit
        have hest := enrollFold_establishes uid (now + dm)
          (items.map (validateItem amt items.length))
          (papPayments pid uid
            (((items.map (validateItem amt items.length)).map
              (fun it => it.price.getD 0)).sum)
            (papMeta (items.map (validateItem amt items.length)) dm)
            now (items.map (validateItem amt items.length)) db)
          (validateItem amt items.length it) hvmem
        rw [h1] at hest
        simp only [itemEnrolled, validateItem_kind, hk] at hest
        constructor
        · exact hest
        · intro hfresh
          have hfresh2 : freshCourse (papPayments pid uid
              (((items.map (validateItem amt items.length)).map
                (fun it => it.price.getD 0)).sum)
              (papMeta (items.map (validateItem amt items.length)) dm)
              now (items.map (validateItem amt items.length)) db) uid it.id := by
            unfold freshCourse at hfresh ⊢
            intro e he
            exact hfresh e he
          have hnull := enrollFold_creates_null uid it.id (now + dm)
            (items.map (validateItem amt items.length)) _
            (validateItem amt items.length it)
            (by rw [validateItem_kind]; exact hk) rfl hvmem (Or.inr hfresh2)
          rw [h1] at hnull
          exact hnull
      · intro it hit hk
        have hvmem : validateItem amt items.length it ∈
            items.map (validateItem amt items.length) :=
          List.mem_map_of_mem _ hit
        have hest := enrollFold_establishes uid (now + dm)
          (items.map (validateItem amt items.length))
          (papPayments pid uid
            (((items.map (validateItem amt items.length)).map
              (fun it => it.price.getD 0)).sum)
            (papMeta (items.map (validateItem amt items.length)) dm)
            now (items.map (validateItem amt items.length)) db)
          (validateItem amt items.length it) hvmem
        rw [h1] at hest
        simp only [itemEnrolled, validateItem_kind, hk] at hest
        obtain ⟨⟨e, he, g1, g2⟩, hall⟩ := hest
        exact ⟨e, he, g1, g2, hall e he g1 g2⟩
  · intro m hm
    simp [durationOrDefault, hm]

/-- C4 counterexample: a pre-existing timed course enrollment survives the
approved processing with its old end date, so the course item does not end
up with an untimed (`endDate` null) enrollment as the claim states. -/
theorem C4_preexisting_course_enrollment_keeps_end_date :
    ((processApprovedPayment "p1" "u" 100
        [⟨"c1", ItemKind.course, none, none, none⟩] 12 0
        ⟨["u"], [], [⟨"u", some "c1", none, some 5⟩], []⟩).getD
      ⟨[], [], [], []⟩).enrollments = [⟨"u", some "c1", none, some 5⟩] := by
  decide

/-- C4 witness: on a fresh database, an approved payment with a course and a
journey creates the untimed course enrollment and a journey enrollment
ending at the processing time plus the default twelve months. -/
theorem C4_approved_enrollment_provisioning_witness :
    ((⟨"u", some "c1", none, none⟩ : Enrollment) ∈
      ((processApprovedPayment "p1" "u" 100
        [⟨"c1", ItemKind.course, none, none, none⟩,
         ⟨"j1", ItemKind.journey, none, none, none⟩] 12 0
        ⟨["u"], [], [], []⟩).getD ⟨[], [], [], []⟩).enrollments) ∧
    (∃ e ∈ ((processApprovedPayment "p1" "u" 100
        [⟨"c1", ItemKind.course, none, none, none⟩,
         ⟨"j1", ItemKind.journey, none, none, none⟩] 12 0
        ⟨["u"], [], [], []⟩).getD ⟨[], [], [], []⟩).enrollments,
      e.userId = "u" ∧ e.journeyId = some "j1" ∧ e.endDate = some 12) := by
  have h := C4_approved_enrollment_provisioning.1 "p1" "u" 100
    [⟨"c1", ItemKind.course, none, none, none⟩,
     ⟨"j1", ItemKind.journey, none, none, none⟩] 12 0 ⟨["u"], [], [], []⟩
    ((processApprovedPayment "p1" "u" 100
      [⟨"c1", ItemKind.course, none, none, none⟩,
       ⟨"j1", ItemKind.journey, none, none, none⟩] 12 0
      ⟨["u"], [], [], []⟩).getD ⟨[], [], [], []⟩) (by decide)
  constructor
  · exact (h.1 ⟨"c1", ItemKind.course, none, none, none⟩ (by decide) rfl).2
      (fun e he => (List.not_mem_nil e he).elim)
  · exact h.2 ⟨"j1", ItemKind.journey, none, none, none⟩ (by decide) rfl

/-- C5: when a refund completes — via the primary webhook handler processing
gateway status `refunded`, or via the refund endpoint — every enrollment of
the payment's user for each course or journey item of the payment is
deleted. -/
theorem C5_refund_revokes_enrollments :
    (∀ (b : Body) (gw : Gw) (now : Nat) (db : DB) (pid : String)
      (gwp : GwPayment) (uid : String) (items : List MetaItem),
      b.btype = "payment" → b.dataId = some pid →
      getPaymentWithFallback gw db pid = some gwp →
      jsLower gwp.status = "refunded" →
      resolveUserId gwp = some uid → uid ≠ "" →
      resolveItems gwp.meta = items → items ≠ [] →
      paymentExists db pid = true →
      ∀ it ∈ items, noItemEnrollment (webhookPost1 (some b) gw now db).1 uid it) ∧
    (∀ (paymentId uid : String) (gwr : GwRefund) (now : Nat) (db : DB)
      (p : PaymentRec),
      findPaymentById db paymentId = some p →
      p.userId = uid →
      hasApprovedRefund db paymentId = false →
      ¬ p.createdAt + 30 < now →
      (refundPost paymentId uid (some gwr) now db).2 = ⟨200, "success"⟩ ∧
      ∀ it ∈ paymentItemsOf p,
        noItemEnrollment (refundPost paymentId uid (some gwr) now db).1 uid it) :=
  ⟨webhook1_refunded_revokes, refundPost_revokes⟩

/-- C5 witness: refunding a concrete approved course payment reports success
and leaves no enrollment of the user for the course. -/
theorem C5_refund_revokes_enrollments_witness :
    noItemEnrollment
      (refundPost "pay1" "u" (some ⟨some "r1", "approved"⟩) 1
        ⟨["u"], [⟨"pay1", "mp1", "u", "APPROVED", 100, meta0, some "COURSE",
          some "c1", none, [], 0⟩], [⟨"u", some "c1", none, none⟩], []⟩).1
      "u" ⟨"c1", ItemKind.course, none, none, none⟩ :=
  (C5_refund_revokes_enrollments.2 "pay1" "u" ⟨some "r1", "approved"⟩ 1
    ⟨["u"], [⟨"pay1", "mp1", "u", "APPROVED", 100, meta0, some "COURSE",
      some "c1", none, [], 0⟩], [⟨"u", some "c1", none, none⟩], []⟩
    ⟨"pay1", "mp1", "u", "APPROVED", 100, meta0, some "COURSE",
      some "c1", none, [], 0⟩
    (by decide) rfl (by decide) (by decide)).2
    ⟨"c1", ItemKind.course, none, none, none⟩ (by decide)

/-- C6: every status value the payment creation handler, either webhook
handler or the refund endpoint writes into a payment row is one of the five
lifecycle states `PENDING`, `APPROVED`, `REFUNDED`, `CANCELLED`, `FAILED`:
each operation preserves the invariant that all payment rows carry a
lifecycle status. -/
theorem C6_payment_status_lifecycle_invariant :
    (∀ (uid pid : String) (items : List MetaItem) (totalCents now : Nat)
      (db : DB), statusInv db →
      statusInv (payCreate uid pid items totalCents now db)) ∧
    (∀ (body : Option Body) (gw : Gw) (now : Nat) (db : DB), statusInv db →
      statusInv (webhookPost1 body gw now db).1) ∧
    (∀ (body : Option Body) (gw : Gw) (now : Nat) (db : DB), statusInv db →
      statusInv (webhookPost2 body gw now db).1) ∧
    (∀ (paymentId uid : String) (gwRefund : Option GwRefund) (now : Nat)
      (db : DB), statusInv db →
      statusInv (refundPost paymentId uid gwRefund now db).1) :=
  ⟨payCreate_statusInv, webhook1_statusInv, webhook2_statusInv,
    refundPost_statusInv⟩

/-- C6 witness: the invariant holds concretely after creating a payment on
an empty database. -/
theorem C6_payment_status_lifecycle_invariant_witness :
    statusInv (payCreate "u" "p1" [⟨"c1", ItemKind.course, none, none, none⟩]
      100 0 ⟨[], [], [], []⟩) :=
  C6_payment_status_lifecycle_invariant.1 "u" "p1"
    [⟨"c1", ItemKind.course, none, none, none⟩] 100 0 ⟨[], [], [], []⟩
    (fun p hp => (List.not_mem_nil p hp).elim)

/-- C7: the two webhook handler implementations in the same route file are
extensionally different: there is a webhook event and an initial
database/gateway state on which they produce different resulting database
states or different HTTP responses. -/
theorem C7_webhook_handlers_conflict :
    ∃ (body : Option Body) (gw : Gw) (now : Nat) (db : DB),
      (webhookPost1 body gw now db).1 ≠ (webhookPost2 body gw now db).1 ∨
      (webhookPost1 body gw now db).2 ≠ (webhookPost2 body gw now db).2 := by
  refine ⟨some ⟨"payment", none⟩, ⟨[]⟩, 0, ⟨[], [], [], []⟩, Or.inr ?_⟩
  decide

/-- C8 (amended): the refund endpoint never inspects the payment's status:
it creates a refund row, marks the payment `REFUNDED` and reports success
exactly when the payment exists, belongs to the requesting user, has no
completed or approved refund yet, is at most thirty days old, and the
gateway reversal succeeds; in every other case it returns a non-200 error
and leaves the database unchanged. -/
theorem C8_refund_guards_ignore_payment_status :
    ∀ (paymentId uid : String) (gwRefund : Option GwRefund) (now : Nat)
      (db : DB),
      ((refundGuardsOK paymentId uid now db ∧ gwRefund ≠ none) →
        (refundPost paymentId uid gwRefund now db).1.refunds.length =
          db.refunds.length + 1 ∧
        (refundPost paymentId uid gwRefund now db).2 = ⟨200, "success"⟩) ∧
      (¬(refundGuardsOK paymentId uid now db ∧ gwRefund ≠ none) →
        (refundPost paymentId uid gwRefund now db).1 = db ∧
        (refundPost paymentId uid gwRefund now db).2.status ≠ 200) :=
  refund_characterization

/-- C8 counterexample: a payment whose status is `PENDING` — not `APPROVED`
— is refunded successfully: the endpoint answers 200 and creates a refund
row, contradicting the claim that a non-approved payment fails with an
error and no refund record. -/
theorem C8_pending_payment_refund_succeeds :
    ((refundPost "pay1" "u" (some ⟨some "r1", "approved"⟩) 1
        ⟨["u"], [⟨"pay1", "mp1", "u", "PENDING", 100, meta0, some "COURSE",
          some "c1", none, [], 0⟩], [], []⟩).2 = ⟨200, "success"⟩) ∧
    ((refundPost "pay1" "u" (some ⟨some "r1", "approved"⟩) 1
        ⟨["u"], [⟨"pay1", "mp1", "u", "PENDING", 100, meta0, some "COURSE",
          some "c1", none, [], 0⟩], [], []⟩).1.refunds.length = 1) := by
  decide

/-- C8 witness: the characterization applied to the concrete pending
payment: the guards hold, so a refund row is created and success is
reported. -/
theorem C8_refund_guards_ignore_payment_status_witness :
    (refundPost "pay1" "u" (some ⟨some "r1", "approved"⟩) 1
      ⟨["u"], [⟨"pay1", "mp1", "u", "PENDING", 100, meta0, some "COURSE",
        some "c1", none, [], 0⟩], [], []⟩).1.refunds.length = 0 + 1 ∧
    (refundPost "pay1" "u" (some ⟨some "r1", "approved"⟩) 1
      ⟨["u"], [⟨"pay1", "mp1", "u", "PENDING", 100, meta0, some "COURSE",
        some "c1", none, [], 0⟩], [], []⟩).2 = ⟨200, "success"⟩ :=
  (C8_refund_guards_ignore_payment_status "pay1" "u"
    (some ⟨some "r1", "approved"⟩) 1
    ⟨["u"], [⟨"pay1", "mp1", "u", "PENDING", 100, meta0, some "COURSE",
      some "c1", none, [], 0⟩], [], []⟩).1
    ⟨⟨⟨"pay1", "mp1", "u", "PENDING", 100, meta0, some "COURSE",
      some "c1", none, [], 0⟩, by decide, rfl, by decide, by decide⟩,
      by simp⟩

/-- C9: the has-access check answers true exactly when some enrollment of
the user for the course (or journey) is untimed (`endDate` null) or has an
end date at least the current instant; an enrollment whose end date equals
the current instant still grants access. -/
theorem C9_has_access_iff (db : DB) (uid itemId : String) (now : Nat) :
    (hasCourseAccess db uid itemId now = true ↔
      ∃ e ∈ db.enrollments, e.userId = uid ∧ e.courseId = some itemId ∧
        (e.endDate = none ∨ ∃ d, e.endDate = some d ∧ now ≤ d)) ∧
    (hasJourneyAccess db uid itemId now = true ↔
      ∃ e ∈ db.enrollments, e.userId = uid ∧ e.journeyId = some itemId ∧
        (e.endDate = none ∨ ∃ d, e.endDate = some d ∧ now ≤ d)) := by
  constructor
  · simp only [hasCourseAccess, List.any_eq_true, Bool.and_eq_true, beq_iff_eq]
    constructor
    · rintro ⟨e, he, ⟨⟨h1, h2⟩, h3⟩⟩
      refine ⟨e, he, h1, h2, ?_⟩
      cases h : e.endDate with
      | none => exact Or.inl rfl
      | some d =>
        right
        refine ⟨d, rfl, ?_⟩
        rw [h] at h3
        simpa [endDateOk] using h3
    · rintro ⟨e, he, h1, h2, h3⟩
      refine ⟨e, he, ⟨h1, h2⟩, ?_⟩
      rcases h3 with h | ⟨d, hd, hle⟩
      · simp [endDateOk, h]
      · simp [endDateOk, hd, hle]
  · simp only [hasJourneyAccess, List.any_eq_true, Bool.and_eq_true, beq_iff_eq]
    constructor
    · rintro ⟨e, he, ⟨⟨h1, h2⟩, h3⟩⟩
      refine ⟨e, he, h1, h2, ?_⟩
      cases h : e.endDate with
      | none => exact Or.inl rfl
      | some d =>
        right
        refine ⟨d, rfl, ?_⟩
        rw [h] at h3
        simpa [endDateOk] using h3
    · rintro ⟨e, he, h1, h2, h3⟩
      refine ⟨e, he, ⟨h1, h2⟩, ?_⟩
      rcases h3 with h | ⟨d, hd, hle⟩
      · simp [endDateOk, h]
      · simp [endDateOk, hd, hle]

/-- C9 witness: an enrollment whose end date equals the current instant
still grants access. -/
theorem C9_has_access_iff_witness :
    hasCourseAccess ⟨[], [], [⟨"u", some "c1", none, some 7⟩], []⟩
      "u" "c1" 7 = true :=
  (C9_has_access_iff ⟨[], [], [⟨"u", some "c1", none, some 7⟩], []⟩
    "u" "c1" 7).1.mpr
    ⟨⟨"u", some "c1", none, some 7⟩, by decide, rfl, rfl,
      Or.inr ⟨7, rfl, Nat.le_refl 7⟩⟩

/-- C10: the primary webhook handler answers HTTP 200 on every request —
malformed body, unrecognized event type, missing payment id, failed gateway
lookup, missing user or items, and every internal error included — errors
are reported only in the response body. -/
theorem C10_webhook1_always_http_200 :
    ∀ (body : Option Body) (gw : Gw) (now : Nat) (db : DB),
      (webhookPost1 body gw now db).2.status = 200 :=
  fun _ _ _ _ => rfl
